import Mathlib

/-!
# ATLauncher pack installation task

A shallow embedding of `api/logic/modplatform/atlauncher/ATLPackInstallTask.cpp`.
The member functions of `PackInstallTask` become state-passing functions on a
record of the task's fields.  Calls into collaborators (status updates, signals of
the `Task` base class, the component registry, the instance settings, log output)
are recorded, in program order, in the field `log`.
-/

namespace ATLauncher

/-! ## Manifest model (the fields of `ATLauncher::Version` the task reads) -/

/-- Asset kinds: the enumerators the switch of `getDirForModType` ranges over. -/
inductive ModType
  | Forge | Jar | Mods | Flan | Dependency | Ic2Lib | DenLib | Coremods
  | MCPC | Plugins | Extract | Decomp | ResourcePack | Unknown
  deriving DecidableEq, Repr

/-- Download modes: the enumerators the switch of `installMods` ranges over. -/
inductive DownloadType
  | Server | Browser | Direct | Unknown
  deriving DecidableEq, Repr

/-- One entry of `m_version.mods`. -/
structure VersionMod where
  type : ModType
  type_raw : String
  file : String
  download : DownloadType
  download_raw : String
  url : String
  deriving DecidableEq, Repr

/-- The member `m_version.pack`. -/
structure VersionPack where
  minecraft : String
  deriving DecidableEq, Repr

/-- The member `m_version.loader`. -/
structure VersionLoader where
  type : String
  version : String
  deriving DecidableEq, Repr

/-- The parsed manifest, `ATLauncher::Version`. -/
structure Version where
  pack : VersionPack
  loader : VersionLoader
  mods : List VersionMod
  deriving DecidableEq, Repr

/-! ## Collaborators -/

/-- A DOM tree, the value a `QDomDocument` holds after a successful `setContent`. -/
inductive QDomNode
  | element (tag : String) (attributes : List (String × String)) (children : List QDomNode)
  | text (data : String)

/-- The three out-parameters `QDomDocument::setContent` fills in on failure. -/
structure DomError where
  errorMsg : String
  errorLine : Int
  errorCol : Int
  deriving DecidableEq, Repr

/-- What the task takes from its surroundings: the build configuration, the
translation function, the XML parser, the manifest loader, the meta cache and the
zip library. -/
structure Env where
  /-- The constant `BuildConfig.ATL_DOWNLOAD_SERVER`. -/
  ATL_DOWNLOAD_SERVER : String
  /-- The function `QObject::tr`. -/
  tr : String → String
  /-- The call `doc.setContent(response, false, &errorMsg, &errorLine, &errorCol)`. -/
  setContent : String → Except DomError QDomNode
  /-- The call `ATLauncher::loadVersion(version, doc)`. -/
  loadVersion : QDomNode → Version
  /-- The call `QString(template).arg(a)`. -/
  arg : String → String → String
  /-- The call `QString(template).arg(a, fieldWidth, fillChar)`. -/
  argWidth : String → String → Int → Int → String
  /-- The call `QDir(path).absolutePath()`. -/
  absolutePath : String → String
  /-- The full path of `ENV.metacache()->resolveEntry(base, path)`. -/
  resolveEntry : String → String → String
  /-- Whether `QuaZip(path).open(QuaZip::mdUnzip)` succeeds. -/
  zipOpen : String → Bool

/-- Modelled from the spec: `FS::PathCombine` (FileSystem.h and its implementation
are not among the sources); the spec writes its results as `<staging>/minecraft/...`
and `mods/<runtimeId>`, the two parts joined by a slash. -/
def PathCombine (path1 path2 : String) : String :=
  path1 ++ "/" ++ path2

/-- The three-argument overload of `FS::PathCombine`. -/
def PathCombine3 (path1 path2 path3 : String) : String :=
  PathCombine (PathCombine path1 path2) path3

/-- The four-argument overload of `FS::PathCombine`. -/
def PathCombine4 (path1 path2 path3 path4 : String) : String :=
  PathCombine (PathCombine3 path1 path2 path3) path4

/-- The actions a `NetJob` can hold. -/
inductive NetAction
  | makeByteArray (url : String)
  | makeCached (url : String) (entry : String)
  | makeFile (url : String) (path : String)
  deriving DecidableEq, Repr

/-- The slots and lambdas the task connects to the signals of its jobs. -/
inductive Slot
  | onDownloadSucceeded
  | onDownloadFailed
  | configsSucceeded
  | configsFailed
  | configsProgress
  | modsSucceeded
  | modsFailed
  | modsProgress
  deriving DecidableEq, Repr

/-- A `NetJob`: its name, the actions added to it, whether `start()` was called,
and the slot connected to each of its three signals. -/
structure NetJob where
  name : String
  actions : List NetAction
  started : Bool
  succeeded : Option Slot
  failed : Option Slot
  progress : Option Slot
  deriving DecidableEq, Repr

/-- A new, empty job, `new NetJob(name)`. -/
def NetJob.new (name : String) : NetJob :=
  { name := name, actions := [], started := false,
    succeeded := none, failed := none, progress := none }

/-- The call `job->addNetAction(a)`. -/
def NetJob.addNetAction (j : NetJob) (a : NetAction) : NetJob :=
  { j with actions := j.actions ++ [a] }

/-- The calls `connect(job, &NetJob::succeeded, ...)`, `connect(job, &NetJob::failed,
...)` and, where the source has it, `connect(job, &NetJob::progress, ...)`. -/
def NetJob.connect (j : NetJob) (succeeded failed : Slot) (progress : Option Slot) : NetJob :=
  { j with succeeded := some succeeded, failed := some failed, progress := progress }

/-- The call `job->start()`. -/
def NetJob.start (j : NetJob) : NetJob :=
  { j with started := true }

/-- The calls the task makes into its collaborators; `qWarning` and `qDebug` carry
the items streamed into them. -/
inductive Effect
  | setStatus (status : String)
  | setProgress (current total : Int)
  | qWarning (items : List String)
  | qDebug (items : List String)
  | emitFailed (reason : String)
  | emitSucceeded
  | emitAborted
  | jobStart (job : NetJob)
  | setStale (entry : String) (stale : Bool)
  | extractDir (archive target : String)
  | registerSetting (id defVal : String)
  | settingsSet (id value : String)
  | buildingFromScratch
  | setComponentVersion (uid version : String) (important : Bool)
  | installJarMods (paths : List String)
  | saveNow
  | setName (name : String)
  | setIconKey (icon : String)
  | resumeSave
  deriving DecidableEq, Repr

/-- Modelled from the spec: the state kept by the `Task` base class (tasks/Task.h is
not among the sources): a task runs until it reaches one of the terminal states
Succeeded, Failed (with a reason) or Aborted. -/
inductive TaskState
  | running
  | succeeded
  | failed (reason : String)
  | aborted
  deriving DecidableEq, Repr

/-- The fields of `PackInstallTask` the member functions read and write, the state
of the `Task` base class, and the log of calls made so far. -/
structure PackInstallTask where
  m_pack : String
  m_version_name : String
  m_version : Version
  m_stagingPath : String
  m_instName : String
  m_instIcon : String
  response : String
  archivePath : String
  jarmods : List String
  jobPtr : Option NetJob
  /-- Whether `m_extractFutureWatcher` watches a future that has not finished. -/
  extractPending : Bool
  state : TaskState
  log : List Effect
  deriving DecidableEq, Repr

namespace PackInstallTask

/-- Record one call in the log. -/
def call (e : Effect) (t : PackInstallTask) : PackInstallTask :=
  { t with log := t.log ++ [e] }

/-- Modelled from the spec: `Task::emitFailed` (tasks/Task.cpp is not among the
sources). The call is recorded; the task becomes Failed with the reason given
unless it already is in a terminal state, after which "no further stage
transitions occur". -/
def emitFailed (reason : String) (t : PackInstallTask) : PackInstallTask :=
  { t with log := t.log ++ [Effect.emitFailed reason],
           state := match t.state with
             | TaskState.running => TaskState.failed reason
             | s => s }

/-- Modelled from the spec: `Task::emitSucceeded` (tasks/Task.cpp is not among the
sources). The call is recorded; the task becomes Succeeded unless it already is in
a terminal state. -/
def emitSucceeded (t : PackInstallTask) : PackInstallTask :=
  { t with log := t.log ++ [Effect.emitSucceeded],
           state := match t.state with
             | TaskState.running => TaskState.succeeded
             | s => s }

/-- Modelled from the spec: `Task::emitAborted` (tasks/Task.cpp is not among the
sources). The call is recorded; the task becomes Aborted unless it already is in a
terminal state. -/
def emitAborted (t : PackInstallTask) : PackInstallTask :=
  { t with log := t.log ++ [Effect.emitAborted],
           state := match t.state with
             | TaskState.running => TaskState.aborted
             | s => s }

/-- The constructor `PackInstallTask(pack, version)`; the staging path, instance
name and icon are set by the caller before the task starts. -/
def create (pack version stagingPath instName instIcon : String) : PackInstallTask :=
  { m_pack := pack, m_version_name := version,
    m_version := { pack := { minecraft := "" }, loader := { type := "", version := "" }, mods := [] },
    m_stagingPath := stagingPath, m_instName := instName, m_instIcon := instIcon,
    response := "", archivePath := "", jarmods := [], jobPtr := none,
    extractPending := false, state := TaskState.running, log := [] }

/-- The member function `abort`: `return true;`. -/
def abort (t : PackInstallTask) : Bool × PackInstallTask :=
  (true, t)

/-- The member function `getDirForModType`. The result `none` stands for the null
string returned by `return Q_NULLPTR;`. -/
def getDirForModType (env : Env) (t : PackInstallTask) (type : ModType) (raw : String) :
    Option String × PackInstallTask :=
  match type with
  | ModType.Forge => (some "jarmods", t)
  | ModType.Jar => (some "jarmods", t)
  | ModType.Mods => (some "mods", t)
  | ModType.Flan => (some "Flan", t)
  | ModType.Dependency => (some (PathCombine "mods" t.m_version.pack.minecraft), t)
  | ModType.Ic2Lib => (some (PathCombine "mods" "ic2"), t)
  | ModType.DenLib => (some (PathCombine "mods" "denlib"), t)
  | ModType.Coremods => (some "coremods", t)
  | ModType.MCPC => (none, t)
  | ModType.Plugins => (some "plugins", t)
  | ModType.Extract => (none, t.call (Effect.qWarning ["Unsupported mod type: " ++ raw]))
  | ModType.Decomp => (none, t.call (Effect.qWarning ["Unsupported mod type: " ++ raw]))
  | ModType.ResourcePack => (some "resourcepacks", t)
  | ModType.Unknown => (none, t.emitFailed (env.tr "Unknown mod type: " ++ raw))

/-- The test `relpath == Q_NULLPTR`: a string compares equal to the null pointer
when it is null or empty. -/
def isNullPtr : Option String → Bool
  | none => true
  | some s => s == ""

/-- The body of the loop of `installMods` over the remaining assets. The flag
returned is `false` when the loop was left by one of its `return` statements. -/
def installModsLoop (env : Env) : List VersionMod → PackInstallTask → Bool × PackInstallTask
  | [], t => (true, t)
  | mod :: rest, t =>
    let r := getDirForModType env t mod.type mod.type_raw
    let relpath := r.1
    let t1 := r.2
    if isNullPtr relpath then installModsLoop env rest t1
    else
      let path := PathCombine4 t1.m_stagingPath "minecraft" (relpath.getD "") mod.file
      let enqueue (url : String) : Bool × PackInstallTask :=
        let t2 := t1.call (Effect.qDebug ["Will download", url, "to", path])
        let t3 := { t2 with jobPtr := t2.jobPtr.map fun (j : NetJob) => j.addNetAction (NetAction.makeFile url path) }
        let t4 :=
          if mod.type = ModType.Jar ∨ mod.type = ModType.Forge then
            let t3d := t3.call (Effect.qDebug ["Jarmod: " ++ path])
            { t3d with jarmods := t3d.jarmods ++ [path] }
          else t3
        installModsLoop env rest t4
      match mod.download with
      | DownloadType.Server => enqueue (env.ATL_DOWNLOAD_SERVER ++ mod.url)
      | DownloadType.Browser =>
        (false, t1.emitFailed (env.tr "Unsupported download type: " ++ mod.download_raw))
      | DownloadType.Direct => enqueue mod.url
      | DownloadType.Unknown =>
        (false, t1.emitFailed (env.tr "Unknown download type: " ++ mod.download_raw))

/-- The member function `installMods`. -/
def installMods (env : Env) (t : PackInstallTask) : PackInstallTask :=
  let t1 := t.call (Effect.setStatus (env.tr "Downloading mods..."))
  let t2 := { t1 with jarmods := [], jobPtr := some (NetJob.new (env.tr "Mod download")) }
  let r := installModsLoop env t2.m_version.mods t2
  if r.1 then
    let t3 := r.2
    let t4 := { t3 with jobPtr := t3.jobPtr.map fun (j : NetJob) =>
      (j.connect Slot.modsSucceeded Slot.modsFailed (some Slot.modsProgress)).start }
    match t4.jobPtr with
    | some j => t4.call (Effect.jobStart j)
    | none => t4
  else r.2

/-- The member function `install`. -/
def install (env : Env) (t : PackInstallTask) : PackInstallTask :=
  let t1 := t.call (Effect.setStatus (env.tr "Installing modpack"))
  let t2 := t1.call (Effect.registerSetting "InstanceType" "Legacy")
  let t3 := t2.call (Effect.settingsSet "InstanceType" "OneSix")
  let t4 := t3.call Effect.buildingFromScratch
  let t5 := t4.call (Effect.setComponentVersion "net.minecraft" t4.m_version.pack.minecraft true)
  let finish (c : PackInstallTask) : PackInstallTask :=
    let c1 := c.call (Effect.installJarMods c.jarmods)
    let c2 := c1.call Effect.saveNow
    let c3 := c2.call (Effect.setName c2.m_instName)
    let c4 := c3.call (Effect.setIconKey c3.m_instIcon)
    let c5 := c4.call Effect.resumeSave
    let c6 := { c5 with jarmods := [] }
    c6.emitSucceeded
  if t5.m_version.loader.type = "forge" then
    finish (t5.call (Effect.setComponentVersion "net.minecraftforge" t5.m_version.loader.version true))
  else if t5.m_version.loader.type = "fabric" then
    finish (t5.call
      (Effect.setComponentVersion "net.fabricmc.fabric-loader" t5.m_version.loader.version true))
  else if t5.m_version.loader.type ≠ "" then
    t5.emitFailed (env.tr "Unknown loader type: " ++ t5.m_version.loader.type)
  else finish t5

/-- The member function `extractConfigs`. -/
def extractConfigs (env : Env) (t : PackInstallTask) : PackInstallTask :=
  let t1 := t.call (Effect.setStatus (env.tr "Extracting configs..."))
  if env.zipOpen t1.archivePath = false then
    t1.emitFailed (env.arg (env.tr "Failed to open pack configs %1!") t1.archivePath)
  else
    let t2 := t1.call
      (Effect.extractDir t1.archivePath (env.absolutePath t1.m_stagingPath ++ "/minecraft"))
    { t2 with extractPending := true }

/-- The member function `installConfigs`. -/
def installConfigs (env : Env) (t : PackInstallTask) : PackInstallTask :=
  let t1 := t.call (Effect.setStatus (env.tr "Downloading configs..."))
  let job := NetJob.new (env.tr "Config download")
  let path := env.arg (env.arg "%1/%2" t1.m_pack) t1.m_version_name
  let url := env.arg
    (env.arg (env.ATL_DOWNLOAD_SERVER ++ "packs/%1/versions/%2/Configs.zip") t1.m_pack)
    t1.m_version_name
  let entry := env.resolveEntry "ATLauncherPacks" path
  let t2 := t1.call (Effect.setStale entry true)
  let job1 := job.addNetAction (NetAction.makeCached url entry)
  let job2 := (job1.connect Slot.configsSucceeded Slot.configsFailed (some Slot.configsProgress)).start
  let t3 := { t2 with archivePath := entry, jobPtr := some job2 }
  t3.call (Effect.jobStart job2)

/-- The member function `onDownloadSucceeded`. -/
def onDownloadSucceeded (env : Env) (t : PackInstallTask) : PackInstallTask :=
  let t1 := { t with jobPtr := none }
  match env.setContent t1.response with
  | Except.error e =>
    let fullErrMsg :=
      env.argWidth "Failed to fetch modpack data: %1 %2:3d!" e.errorMsg e.errorLine e.errorCol
    let t2 := t1.call (Effect.qWarning [fullErrMsg])
    { t2 with response := "" }
  | Except.ok doc =>
    let t2 := { t1 with m_version := env.loadVersion doc }
    installConfigs env t2

/-- The member function `onDownloadFailed`. -/
def onDownloadFailed (reason : String) (t : PackInstallTask) : PackInstallTask :=
  let t1 := { t with jobPtr := none }
  t1.emitFailed reason

/-- The member function `executeTask`; the body the job downloads is delivered into
`response` by the job itself. -/
def executeTask (env : Env) (t : PackInstallTask) : PackInstallTask :=
  let netJob := NetJob.new "ATLauncher::VersionFetch"
  let searchUrl := env.arg
    (env.arg (env.ATL_DOWNLOAD_SERVER ++ "packs/%1/versions/%2/Configs.xml") t.m_pack)
    t.m_version_name
  let netJob1 := (netJob.addNetAction (NetAction.makeByteArray searchUrl)).start
  let t1 := { t with jobPtr := some netJob1 }
  let t2 := t1.call (Effect.jobStart netJob1)
  { t2 with jobPtr := t2.jobPtr.map fun (j : NetJob) =>
      j.connect Slot.onDownloadSucceeded Slot.onDownloadFailed none }

/-- The lambda `installConfigs` connects to `NetJob::succeeded`. -/
def installConfigs_succeeded (env : Env) (t : PackInstallTask) : PackInstallTask :=
  extractConfigs env { t with jobPtr := none }

/-- The lambda `installConfigs` connects to `NetJob::failed`. -/
def installConfigs_failed (reason : String) (t : PackInstallTask) : PackInstallTask :=
  let t1 := { t with jobPtr := none }
  t1.emitFailed reason

/-- The lambda `installMods` connects to `NetJob::succeeded`. -/
def installMods_succeeded (env : Env) (t : PackInstallTask) : PackInstallTask :=
  install env { t with jobPtr := none }

/-- The lambda `installMods` connects to `NetJob::failed`. -/
def installMods_failed (reason : String) (t : PackInstallTask) : PackInstallTask :=
  let t1 := { t with jobPtr := none }
  t1.emitFailed reason

/-- The lambdas connected to `NetJob::progress`: `setProgress(current, total)`. -/
def job_progress (current total : Int) (t : PackInstallTask) : PackInstallTask :=
  t.call (Effect.setProgress current total)

/-- The lambda `extractConfigs` connects to the watcher signal `finished`. -/
def extractConfigs_finished (env : Env) (t : PackInstallTask) : PackInstallTask :=
  installMods env t

/-- The lambda `extractConfigs` connects to the watcher signal `canceled`. -/
def extractConfigs_canceled (t : PackInstallTask) : PackInstallTask :=
  t.emitAborted

end PackInstallTask

/-! ## Signal delivery -/

/-- The signals the task waits for: those of the job held in `jobPtr` and those of
the extraction watcher. -/
inductive Event
  | jobSucceeded
  | jobFailed (reason : String)
  | jobProgress (current total : Int)
  | extractFinished
  | extractCanceled
  deriving DecidableEq, Repr

open PackInstallTask in
/-- Delivery of one signal. A job signal reaches the slot connected to it on the
job held in `jobPtr`, if that job was started. A watcher signal is delivered while an
extraction is pending; `finished` ends the extraction, `canceled` does not: the
lambda connected to `finished` stays connected and still runs when the cancelled
extraction finishes. Without a receiver the task is unchanged. -/
def deliver (env : Env) (e : Event) (t : PackInstallTask) : PackInstallTask :=
  match e with
  | Event.jobSucceeded =>
    match t.jobPtr with
    | some j =>
      if j.started then
        match j.succeeded with
        | some Slot.onDownloadSucceeded => onDownloadSucceeded env t
        | some Slot.configsSucceeded => installConfigs_succeeded env t
        | some Slot.modsSucceeded => installMods_succeeded env t
        | _ => t
      else t
    | none => t
  | Event.jobFailed reason =>
    match t.jobPtr with
    | some j =>
      if j.started then
        match j.failed with
        | some Slot.onDownloadFailed => onDownloadFailed reason t
        | some Slot.configsFailed => installConfigs_failed reason t
        | some Slot.modsFailed => installMods_failed reason t
        | _ => t
      else t
    | none => t
  | Event.jobProgress current total =>
    match t.jobPtr with
    | some j =>
      if j.started then
        match j.progress with
        | some Slot.configsProgress => job_progress current total t
        | some Slot.modsProgress => job_progress current total t
        | _ => t
      else t
    | none => t
  | Event.extractFinished =>
    if t.extractPending then extractConfigs_finished env { t with extractPending := false }
    else t
  | Event.extractCanceled =>
    if t.extractPending then extractConfigs_canceled t
    else t

/-- Delivery of a sequence of signals, in order. -/
def deliverAll (env : Env) : List Event → PackInstallTask → PackInstallTask
  | [], t => t
  | e :: es, t => deliverAll env es (deliver env e t)

/-! ## Vocabulary for the statements -/

/-- The calls a function added to the log: those of `t2` after the ones of `t1`. -/
def newCalls (t1 t2 : PackInstallTask) : List Effect :=
  t2.log.drop t1.log.length

/-- The message `msg` contains the label `label` (as a contiguous substring). -/
def containsLabel (msg label : String) : Prop :=
  label.data <:+: msg.data

instance containsLabel.decidable (msg label : String) : Decidable (containsLabel msg label) :=
  inferInstanceAs (Decidable (label.data <:+: msg.data))

/-- The kinds for which `getDirForModType` returns the null string without failing
the task: the asset is skipped. -/
def skippedKind : ModType → Bool
  | ModType.MCPC => true
  | ModType.Extract => true
  | ModType.Decomp => true
  | _ => false

/-- The download modes `installMods` resolves to a URL. -/
def goodMode : DownloadType → Bool
  | DownloadType.Server => true
  | DownloadType.Direct => true
  | _ => false

/-- The kinds whose assets `installMods` records as jar mods. -/
def jarKind : ModType → Bool
  | ModType.Jar => true
  | ModType.Forge => true
  | _ => false

/-- The kinds for which `getDirForModType` returns the null string, so that the
loop of `installMods` goes on to the next asset. -/
def nullKind (k : ModType) : Bool :=
  skippedKind k || k == ModType.Unknown

/-- The assets the loop of `installMods` gets past: the directory is null or the
download mode resolves to a URL. -/
def passable (m : VersionMod) : Bool :=
  nullKind m.type || goodMode m.download

/-- The message `installMods` fails with at an asset of mode Browser or Unknown. -/
def modeFailure (env : Env) (m : VersionMod) : String :=
  match m.download with
  | DownloadType.Browser => env.tr "Unsupported download type: " ++ m.download_raw
  | _ => env.tr "Unknown download type: " ++ m.download_raw

/-- The directory `getDirForModType` returns for the asset. -/
def dirOf (env : Env) (t : PackInstallTask) (m : VersionMod) : String :=
  (PackInstallTask.getDirForModType env t m.type m.type_raw).1.getD ""

/-- The destination path `installMods` computes for the asset. -/
def destination (env : Env) (t : PackInstallTask) (m : VersionMod) : String :=
  PathCombine4 t.m_stagingPath "minecraft" (dirOf env t m) m.file

/-- The source URL `installMods` computes for an asset of mode Server or Direct. -/
def sourceUrl (env : Env) (m : VersionMod) : String :=
  match m.download with
  | DownloadType.Server => env.ATL_DOWNLOAD_SERVER ++ m.url
  | _ => m.url

/-- The download `installMods` adds to the batch job for the asset. -/
def downloadOf (env : Env) (t : PackInstallTask) (m : VersionMod) : NetAction :=
  NetAction.makeFile (sourceUrl env m) (destination env t m)

/-- The component registrations among a list of calls. -/
def registrations : List Effect → List (String × String × Bool)
  | [] => []
  | Effect.setComponentVersion uid version important :: rest =>
    (uid, version, important) :: registrations rest
  | _ :: rest => registrations rest

/-- The calls that belong to a stage after `installMods` was entered: starting a
job, starting an extraction, and everything `install` does to the instance. -/
def laterStageCall : Effect → Bool
  | Effect.jobStart _ => true
  | Effect.extractDir _ _ => true
  | Effect.registerSetting _ _ => true
  | Effect.settingsSet _ _ => true
  | Effect.buildingFromScratch => true
  | Effect.setComponentVersion _ _ _ => true
  | Effect.installJarMods _ => true
  | Effect.saveNow => true
  | Effect.setName _ => true
  | Effect.setIconKey _ => true
  | Effect.resumeSave => true
  | Effect.emitSucceeded => true
  | _ => false

namespace PackInstallTask

/-- The task as `installMods` has it when it enters its loop: the status is set,
the jar-mod list cleared and a new job held. -/
def modsEntry (env : Env) (t : PackInstallTask) : PackInstallTask :=
  { t.call (Effect.setStatus (env.tr "Downloading mods...")) with
    jarmods := [], jobPtr := some (NetJob.new (env.tr "Mod download")) }

/-- The batch job of a manifest: one download per asset whose directory is not null,
in manifest order, connected and started. -/
def batchJob (env : Env) (t : PackInstallTask) : NetJob :=
  { name := env.tr "Mod download",
    actions := (t.m_version.mods.filter (fun m => !nullKind m.type)).map (downloadOf env t),
    started := true,
    succeeded := some Slot.modsSucceeded,
    failed := some Slot.modsFailed,
    progress := some Slot.modsProgress }

/-- The run of `installMods` on `t` gets to `jobPtr->start()`. -/
def startsBatchJob (env : Env) (t : PackInstallTask) : Prop :=
  ∃ j, Effect.jobStart j ∈ newCalls t (installMods env t)

/-- Scan a list of calls: no `resumeSave` without a `saveNow` before it. The flag
tells whether a `saveNow` was already seen. -/
def savedBeforeResume : Bool → List Effect → Bool
  | _, [] => true
  | _, Effect.saveNow :: rest => savedBeforeResume true rest
  | saved, Effect.resumeSave :: rest => saved && savedBeforeResume saved rest
  | saved, _ :: rest => savedBeforeResume saved rest

/-- The failure of the job held by `s`, reported with `reason`, ends the task: the
one call made is `emitFailed reason`, the job is released, a task still running
becomes Failed with exactly `reason`, and (no extraction pending) no signal has a
receiver afterwards. -/
def JobFailureHandled (env : Env) (s : PackInstallTask) (reason : String) : Prop :=
  newCalls s (deliver env (Event.jobFailed reason) s) = [Effect.emitFailed reason] ∧
  (deliver env (Event.jobFailed reason) s).jobPtr = none ∧
  (s.state = TaskState.running →
    (deliver env (Event.jobFailed reason) s).state = TaskState.failed reason) ∧
  (s.extractPending = false → ∀ evs : List Event,
    deliverAll env evs (deliver env (Event.jobFailed reason) s)
      = deliver env (Event.jobFailed reason) s)

/-- What the loop of `installMods` may do to the task, whatever the manifest: it
keeps the manifest, the staging path and the watcher, only adds actions to the job,
only adds log output and failure signals to the log, and leaves the state alone or
moves a running task to Failed. -/
def LoopStep (t t2 : PackInstallTask) : Prop :=
  t2.m_version = t.m_version ∧ t2.m_stagingPath = t.m_stagingPath ∧
  t2.m_instName = t.m_instName ∧ t2.m_instIcon = t.m_instIcon ∧
  t2.extractPending = t.extractPending ∧
  (∃ acts, t2.jobPtr = t.jobPtr.map (fun j => { j with actions := j.actions ++ acts })) ∧
  (∃ l, t2.log = t.log ++ l ∧
    ∀ e ∈ l, (∃ items, e = Effect.qDebug items) ∨ (∃ items, e = Effect.qWarning items) ∨
      (∃ reason, e = Effect.emitFailed reason)) ∧
  (t2.state = t.state ∨ (t.state = TaskState.running ∧ ∃ reason, t2.state = TaskState.failed reason))

/-- The calls of `install`, in order, for a loader of kind forge or fabric registered
under the component id `uid`. -/
def installCallsLoader (env : Env) (t : PackInstallTask) (uid : String) : List Effect :=
  [Effect.setStatus (env.tr "Installing modpack"),
   Effect.registerSetting "InstanceType" "Legacy",
   Effect.settingsSet "InstanceType" "OneSix",
   Effect.buildingFromScratch,
   Effect.setComponentVersion "net.minecraft" t.m_version.pack.minecraft true,
   Effect.setComponentVersion uid t.m_version.loader.version true,
   Effect.installJarMods t.jarmods,
   Effect.saveNow,
   Effect.setName t.m_instName,
   Effect.setIconKey t.m_instIcon,
   Effect.resumeSave,
   Effect.emitSucceeded]

/-- The calls of `install`, in order, when the manifest names no loader. -/
def installCallsVanilla (env : Env) (t : PackInstallTask) : List Effect :=
  [Effect.setStatus (env.tr "Installing modpack"),
   Effect.registerSetting "InstanceType" "Legacy",
   Effect.settingsSet "InstanceType" "OneSix",
   Effect.buildingFromScratch,
   Effect.setComponentVersion "net.minecraft" t.m_version.pack.minecraft true,
   Effect.installJarMods t.jarmods,
   Effect.saveNow,
   Effect.setName t.m_instName,
   Effect.setIconKey t.m_instIcon,
   Effect.resumeSave,
   Effect.emitSucceeded]

/-- The calls of `install`, in order, for a loader kind it does not know. -/
def installCallsUnknown (env : Env) (t : PackInstallTask) : List Effect :=
  [Effect.setStatus (env.tr "Installing modpack"),
   Effect.registerSetting "InstanceType" "Legacy",
   Effect.settingsSet "InstanceType" "OneSix",
   Effect.buildingFromScratch,
   Effect.setComponentVersion "net.minecraft" t.m_version.pack.minecraft true,
   Effect.emitFailed (env.tr "Unknown loader type: " ++ t.m_version.loader.type)]

end PackInstallTask

/-! ## A concrete environment and concrete manifests -/

/-- Replace the place marker `%d` by `a` wherever it occurs in a template; the flag
tells that the character before was a percent sign not yet written out. -/
def substMarker (d : Char) (a : List Char) : Bool → List Char → List Char
  | false, [] => []
  | true, [] => ['%']
  | false, c :: rest =>
    if c = '%' then substMarker d a true rest else c :: substMarker d a false rest
  | true, c :: rest =>
    if c = d then a ++ substMarker d a false rest
    else if c = '%' then '%' :: substMarker d a true rest
    else '%' :: c :: substMarker d a false rest

/-- A sample `QString::arg`: the lowest of the markers `%1` to `%9` that occurs in
the template is replaced by the argument. -/
def sampleArg (template a : String) : String :=
  match ['1', '2', '3', '4', '5', '6', '7', '8', '9'].find?
      (fun d => decide (['%', d] <:+: template.data)) with
  | some d => String.mk (substMarker d a.data false template.data)
  | none => template

/-- A sample environment for evaluation: the identity translation, a parser that
accepts only the body `<pack/>`, a loader that returns a vanilla manifest, and a
zip library that opens every archive. -/
def env0 : Env :=
  { ATL_DOWNLOAD_SERVER := "https://download.example/",
    tr := fun s => s,
    setContent := fun s =>
      if s = "<pack/>" then Except.ok (QDomNode.element "pack" [] [])
      else Except.error { errorMsg := "unexpected end of file", errorLine := 1, errorCol := 6 },
    loadVersion := fun _ =>
      { pack := { minecraft := "1.12.2" }, loader := { type := "", version := "" }, mods := [] },
    arg := sampleArg,
    argWidth := fun template a _ _ => sampleArg template a,
    absolutePath := fun p => p,
    resolveEntry := fun base path => base ++ "/" ++ path,
    zipOpen := fun _ => true }

/-- A task with the given manifest, its other fields as after construction. -/
def taskWith (v : Version) : PackInstallTask :=
  { PackInstallTask.create "Pack" "1.0" "/staging" "My Pack" "icon" with m_version := v }

/-- A mod asset of kind Mods, relayed by the download server. -/
def modA : VersionMod :=
  { type := ModType.Mods, type_raw := "mods", file := "a.jar",
    download := DownloadType.Server, download_raw := "server", url := "mods/a.jar" }

/-- An asset whose kind label the parser did not recognise. -/
def modWeird : VersionMod :=
  { type := ModType.Unknown, type_raw := "weirdtype", file := "w.zip",
    download := DownloadType.Server, download_raw := "server", url := "w.zip" }

/-- A mod asset that can only be fetched through a browser. -/
def modBrowser : VersionMod :=
  { type := ModType.Mods, type_raw := "mods", file := "b.jar",
    download := DownloadType.Browser, download_raw := "browser", url := "http://h/b.jar" }

/-- A mod asset whose download mode label the parser did not recognise. -/
def modOddMode : VersionMod :=
  { type := ModType.Mods, type_raw := "mods", file := "c.jar",
    download := DownloadType.Unknown, download_raw := "torrent", url := "http://h/c.jar" }

/-- A jar mod, fetched directly. -/
def modJar : VersionMod :=
  { type := ModType.Jar, type_raw := "jar", file := "j.jar",
    download := DownloadType.Direct, download_raw := "direct", url := "http://h/j.jar" }

/-- A server jar with a browser-only download: skipped by its kind. -/
def modServerJar : VersionMod :=
  { type := ModType.MCPC, type_raw := "mcpc", file := "s.jar",
    download := DownloadType.Browser, download_raw := "browser", url := "http://h/s.jar" }

/-- A Forge manifest with the given assets. -/
def forgePack (mods : List VersionMod) : Version :=
  { pack := { minecraft := "1.12.2" },
    loader := { type := "forge", version := "14.23.5.2854" },
    mods := mods }

/-- A task waiting for its manifest job, the body `<pack/>` already received. -/
def fetchingTask : PackInstallTask :=
  PackInstallTask.executeTask env0 { taskWith (forgePack []) with response := "<pack/>" }

/-- A task waiting for its manifest job, the truncated body `<pack` received. -/
def truncatedTask : PackInstallTask :=
  PackInstallTask.executeTask env0 { taskWith (forgePack []) with response := "<pack" }

/-! ## Properties of the loop of `installMods` -/

namespace PackInstallTask

theorem PathCombine4_eq (a b c d : String) :
    PathCombine4 a b c d = a ++ "/" ++ b ++ "/" ++ c ++ "/" ++ d := rfl

theorem getDirForModType_fields (env : Env) (t : PackInstallTask) (k : ModType) (raw : String) :
    let r := getDirForModType env t k raw
    r.2.m_version = t.m_version ∧ r.2.m_stagingPath = t.m_stagingPath ∧
    r.2.jarmods = t.jarmods ∧ r.2.jobPtr = t.jobPtr ∧ r.2.extractPending = t.extractPending := by
  cases k <;> simp [getDirForModType, call, emitFailed]

theorem getDirForModType_fst_env (env env2 : Env) (t t2 : PackInstallTask) (k : ModType)
    (raw raw2 : String) (h : t.m_version.pack.minecraft = t2.m_version.pack.minecraft) :
    (getDirForModType env t k raw).1 = (getDirForModType env2 t2 k raw2).1 := by
  cases k <;> simp [getDirForModType, h]

theorem getDirForModType_fst (env : Env) (t t2 : PackInstallTask) (k : ModType) (raw raw2 : String)
    (h : t.m_version.pack.minecraft = t2.m_version.pack.minecraft) :
    (getDirForModType env t k raw).1 = (getDirForModType env t2 k raw2).1 := by
  cases k <;> simp [getDirForModType, h]

theorem PathCombine_ne_empty (a b : String) (h : a ≠ "") : PathCombine a b ≠ "" := by
  intro hab
  have hlen := congrArg String.length hab
  simp only [PathCombine, String.length_append] at hlen
  have ha : a.length ≠ 0 := by
    intro h0
    apply h
    apply String.ext
    simpa using List.length_eq_zero.mp h0
  have : ("" : String).length = 0 := rfl
  omega

theorem isNullPtr_getDir (env : Env) (t : PackInstallTask) (k : ModType) (raw : String) :
    isNullPtr (getDirForModType env t k raw).1 = nullKind k := by
  cases k <;>
    simp [getDirForModType, isNullPtr, nullKind, skippedKind, PathCombine_ne_empty]

theorem getDir_snd_of_not_null (env : Env) (t : PackInstallTask) (k : ModType) (raw : String)
    (h : nullKind k = false) : (getDirForModType env t k raw).2 = t := by
  cases k <;> simp_all [getDirForModType, nullKind, skippedKind]

theorem destination_congr (env : Env) (t t2 : PackInstallTask) (m : VersionMod)
    (hs : t.m_stagingPath = t2.m_stagingPath) (hv : t.m_version = t2.m_version) :
    destination env t m = destination env t2 m := by
  unfold destination dirOf
  rw [hs, getDirForModType_fst env t t2 m.type m.type_raw m.type_raw (by rw [hv])]

theorem installModsLoop_null (env : Env) (m : VersionMod) (rest : List VersionMod)
    (t : PackInstallTask) (h : nullKind m.type = true) :
    installModsLoop env (m :: rest) t
      = installModsLoop env rest (getDirForModType env t m.type m.type_raw).2 := by
  simp [installModsLoop, isNullPtr_getDir, h]

theorem installModsLoop_good (env : Env) (m : VersionMod)
    (t : PackInstallTask) (hk : nullKind m.type = false) (hd : goodMode m.download = true) :
    ∃ t2 : PackInstallTask,
      (∀ rest, installModsLoop env (m :: rest) t = installModsLoop env rest t2) ∧
      t2.m_version = t.m_version ∧ t2.m_stagingPath = t.m_stagingPath ∧
      t2.m_instName = t.m_instName ∧ t2.m_instIcon = t.m_instIcon ∧
      t2.extractPending = t.extractPending ∧ t2.state = t.state ∧
      t2.jarmods = t.jarmods ++ (if jarKind m.type then [destination env t m] else []) ∧
      t2.jobPtr = t.jobPtr.map (fun j => j.addNetAction (downloadOf env t m)) ∧
      (∃ l, t2.log = t.log ++ l ∧ ∀ e ∈ l, ∃ items, e = Effect.qDebug items) := by
  have h1 := getDir_snd_of_not_null env t m.type m.type_raw hk
  have h2 := isNullPtr_getDir env t m.type m.type_raw
  rw [hk] at h2
  cases hdl : m.download <;> simp [goodMode, hdl] at hd
  · by_cases hj : m.type = ModType.Jar ∨ m.type = ModType.Forge
    · refine ⟨_, fun rest => by simp [installModsLoop, h1, h2, hdl, hj]; rfl, ?_⟩
      have hjk : jarKind m.type = true := by rcases hj with h | h <;> simp [h, jarKind]
      simp [call, hjk, destination, dirOf, downloadOf, sourceUrl, hdl]
    · refine ⟨_, fun rest => by simp [installModsLoop, h1, h2, hdl, hj]; rfl, ?_⟩
      have hjk : jarKind m.type = false := by
        cases hm : m.type <;> simp_all [jarKind]
      simp [call, hjk, destination, dirOf, downloadOf, sourceUrl, hdl]
  · by_cases hj : m.type = ModType.Jar ∨ m.type = ModType.Forge
    · refine ⟨_, fun rest => by simp [installModsLoop, h1, h2, hdl, hj]; rfl, ?_⟩
      have hjk : jarKind m.type = true := by rcases hj with h | h <;> simp [h, jarKind]
      simp [call, hjk, destination, dirOf, downloadOf, sourceUrl, hdl]
    · refine ⟨_, fun rest => by simp [installModsLoop, h1, h2, hdl, hj]; rfl, ?_⟩
      have hjk : jarKind m.type = false := by
        cases hm : m.type <;> simp_all [jarKind]
      simp [call, hjk, destination, dirOf, downloadOf, sourceUrl, hdl]

theorem installModsLoop_bad (env : Env) (m : VersionMod) (rest : List VersionMod)
    (t : PackInstallTask) (hk : nullKind m.type = false) (hd : goodMode m.download = false) :
    installModsLoop env (m :: rest) t = (false, t.emitFailed (modeFailure env m)) := by
  have h1 := getDir_snd_of_not_null env t m.type m.type_raw hk
  have h2 := isNullPtr_getDir env t m.type m.type_raw
  rw [hk] at h2
  cases hdl : m.download <;> simp [goodMode, hdl] at hd <;>
    simp [installModsLoop, h1, h2, hdl, modeFailure]

theorem LoopStep.refl (t : PackInstallTask) : LoopStep t t := by
  refine ⟨rfl, rfl, rfl, rfl, rfl, ⟨[], ?_⟩, ⟨[], by simp⟩, Or.inl rfl⟩
  cases t.jobPtr <;> simp

theorem LoopStep.trans {t t2 t3 : PackInstallTask} (h12 : LoopStep t t2) (h23 : LoopStep t2 t3) :
    LoopStep t t3 := by
  obtain ⟨a1, a2, a3, a4, a5, ⟨acts1, a6⟩, ⟨l1, a7, a8⟩, a9⟩ := h12
  obtain ⟨b1, b2, b3, b4, b5, ⟨acts2, b6⟩, ⟨l2, b7, b8⟩, b9⟩ := h23
  refine ⟨b1.trans a1, b2.trans a2, b3.trans a3, b4.trans a4, b5.trans a5,
    ⟨acts1 ++ acts2, ?_⟩, ⟨l1 ++ l2, ?_, ?_⟩, ?_⟩
  · rw [b6, a6]
    cases t.jobPtr <;> simp
  · rw [b7, a7, List.append_assoc]
  · intro e he
    rcases List.mem_append.mp he with h | h
    · exact a8 e h
    · exact b8 e h
  · rcases a9 with h | ⟨h, r, hr⟩
    · rcases b9 with h2 | ⟨h2, r2, hr2⟩
      · exact Or.inl (h2.trans h)
      · exact Or.inr ⟨h ▸ h2, r2, hr2⟩
    · rcases b9 with h2 | ⟨h2, r2, hr2⟩
      · exact Or.inr ⟨h, r, h2.trans hr⟩
      · rw [hr] at h2
        cases h2

theorem LoopStep.emitFailed (t : PackInstallTask) (reason : String) :
    LoopStep t (t.emitFailed reason) := by
  refine ⟨rfl, rfl, rfl, rfl, rfl, ⟨[], ?_⟩, ⟨[Effect.emitFailed reason], rfl, ?_⟩, ?_⟩
  · simp only [PackInstallTask.emitFailed]
    cases t.jobPtr <;> simp
  · intro e he
    simp at he
    exact Or.inr (Or.inr ⟨reason, he⟩)
  · simp only [PackInstallTask.emitFailed]
    cases hs : t.state <;> simp

theorem LoopStep.getDir (env : Env) (t : PackInstallTask) (k : ModType) (raw : String) :
    LoopStep t (getDirForModType env t k raw).2 := by
  cases k
  case Unknown => exact LoopStep.emitFailed t _
  case Extract =>
    refine ⟨rfl, rfl, rfl, rfl, rfl, ⟨[], ?_⟩, ⟨[Effect.qWarning ["Unsupported mod type: " ++ raw]], rfl, ?_⟩, Or.inl rfl⟩
    · simp only [getDirForModType, call]
      cases t.jobPtr <;> simp
    · intro e he
      simp at he
      exact Or.inr (Or.inl ⟨_, he⟩)
  case Decomp =>
    refine ⟨rfl, rfl, rfl, rfl, rfl, ⟨[], ?_⟩, ⟨[Effect.qWarning ["Unsupported mod type: " ++ raw]], rfl, ?_⟩, Or.inl rfl⟩
    · simp only [getDirForModType, call]
      cases t.jobPtr <;> simp
    · intro e he
      simp at he
      exact Or.inr (Or.inl ⟨_, he⟩)
  all_goals exact LoopStep.refl t

theorem LoopStep.installModsLoop (env : Env) :
    ∀ (mods : List VersionMod) (t : PackInstallTask), LoopStep t (installModsLoop env mods t).2
  | [], t => LoopStep.refl t
  | m :: rest, t => by
    cases hk : nullKind m.type
    · cases hd : goodMode m.download
      · rw [installModsLoop_bad env m rest t hk hd]
        exact LoopStep.emitFailed t _
      · obtain ⟨t2, h, c1, c2, n1, n2, c3, c4, _, c6, l, c8, c9⟩ :=
          installModsLoop_good env m t hk hd
        rw [h rest]
        refine LoopStep.trans ?_ (LoopStep.installModsLoop env rest t2)
        refine ⟨c1, c2, n1, n2, c3, ⟨[downloadOf env t m], ?_⟩, ⟨l, c8, ?_⟩, Or.inl c4⟩
        · rw [c6]; rfl
        · intro e he
          exact Or.inl (c9 e he)
    · rw [installModsLoop_null env m rest t hk]
      exact LoopStep.trans (LoopStep.getDir env t m.type m.type_raw)
        (LoopStep.installModsLoop env rest _)

theorem jarKind_of_nullKind {k : ModType} (h : nullKind k = true) : jarKind k = false := by
  cases k <;> simp_all [nullKind, skippedKind, jarKind]

theorem destination_loopStep (env : Env) {t t2 : PackInstallTask} (h : LoopStep t t2) :
    destination env t2 = destination env t := by
  funext m
  exact destination_congr env t2 t m h.2.1 h.1

theorem downloadOf_loopStep (env : Env) {t t2 : PackInstallTask} (h : LoopStep t t2) :
    downloadOf env t2 = downloadOf env t := by
  funext m
  simp only [downloadOf, destination_loopStep env h]

theorem LoopStep.of_good (env : Env) (t t2 : PackInstallTask)
    (c1 : t2.m_version = t.m_version) (c2 : t2.m_stagingPath = t.m_stagingPath) :
    destination env t2 = destination env t ∧ downloadOf env t2 = downloadOf env t := by
  have hd : destination env t2 = destination env t := by
    funext m2
    exact destination_congr env t2 t m2 c2 c1
  exact ⟨hd, by funext m2; simp only [downloadOf, hd]⟩

/-- When every asset is passable the loop runs to its end; the jar-mod list grows by
the destinations of the jar-kind assets and the job by the downloads of the assets
whose directory is not null, both in manifest order. -/
theorem installModsLoop_complete (env : Env) :
    ∀ (mods : List VersionMod) (t : PackInstallTask), (∀ m ∈ mods, passable m = true) →
      (installModsLoop env mods t).1 = true ∧
      (installModsLoop env mods t).2.jarmods
        = t.jarmods ++ (mods.filter (fun m => jarKind m.type)).map (destination env t) ∧
      (installModsLoop env mods t).2.jobPtr
        = t.jobPtr.map (fun j => { j with actions := j.actions ++
            (mods.filter (fun m => !nullKind m.type)).map (downloadOf env t) })
  | [], t, _ => by
    refine ⟨rfl, by simp [installModsLoop], ?_⟩
    simp only [installModsLoop]
    cases t.jobPtr <;> simp
  | m :: rest, t, hp => by
    have hrest : ∀ x ∈ rest, passable x = true := fun x hx => hp x (List.mem_cons_of_mem _ hx)
    cases hk : nullKind m.type
    · have hd : goodMode m.download = true := by
        have := hp m (List.mem_cons_self _ _)
        simpa [passable, hk] using this
      obtain ⟨t2, h, c1, c2, _, _, _, _, c5, c6, _⟩ := installModsLoop_good env m t hk hd
      obtain ⟨ih1, ih2, ih3⟩ := installModsLoop_complete env rest t2 hrest
      obtain ⟨e1, e2⟩ := LoopStep.of_good env t t2 c1 c2
      rw [h rest]
      refine ⟨ih1, ?_, ?_⟩
      · rw [ih2, c5, e1]
        cases hj : jarKind m.type <;> simp [List.filter_cons, hj]
      · rw [ih3, c6, e2]
        cases t.jobPtr <;> simp [List.filter_cons, hk, NetJob.addNetAction]
    · rw [installModsLoop_null env m rest t hk]
      have hstep := LoopStep.getDir env t m.type m.type_raw
      have hf := getDirForModType_fields env t m.type m.type_raw
      obtain ⟨ih1, ih2, ih3⟩ :=
        installModsLoop_complete env rest (getDirForModType env t m.type m.type_raw).2 hrest
      refine ⟨ih1, ?_, ?_⟩
      · rw [ih2, destination_loopStep env hstep, hf.2.2.1]
        simp [List.filter_cons, jarKind_of_nullKind hk]
      · rw [ih3, downloadOf_loopStep env hstep, hf.2.2.2.1]
        simp [List.filter_cons, hk]

/-- The loop stops at the first asset that is not passable, with the failure for
its download mode, whatever follows it. -/
theorem installModsLoop_first_bad (env : Env) (a : VersionMod) (post : List VersionMod)
    (hk : nullKind a.type = false) (hd : goodMode a.download = false) :
    ∀ (pre : List VersionMod) (t : PackInstallTask), (∀ m ∈ pre, passable m = true) →
      installModsLoop env (pre ++ a :: post) t
        = (false, (installModsLoop env pre t).2.emitFailed (modeFailure env a))
  | [], t, _ => by
    rw [List.nil_append, installModsLoop_bad env a post t hk hd]
    rfl
  | m :: rest, t, hp => by
    have hrest : ∀ x ∈ rest, passable x = true := fun x hx => hp x (List.mem_cons_of_mem _ hx)
    cases hkm : nullKind m.type
    · have hdm : goodMode m.download = true := by
        have := hp m (List.mem_cons_self _ _)
        simpa [passable, hkm] using this
      obtain ⟨t2, h, _⟩ := installModsLoop_good env m t hkm hdm
      rw [List.cons_append, h, h, installModsLoop_first_bad env a post hk hd rest t2 hrest]
    · rw [List.cons_append, installModsLoop_null env m _ t hkm,
        installModsLoop_null env m _ t hkm,
        installModsLoop_first_bad env a post hk hd rest _ hrest]

/-- The loop runs to its end only when every asset is passable. -/
theorem passable_of_installModsLoop (env : Env) :
    ∀ (mods : List VersionMod) (t : PackInstallTask),
      (installModsLoop env mods t).1 = true → ∀ m ∈ mods, passable m = true
  | [], _, _ => by simp
  | m :: rest, t, h => by
    intro x hx
    cases hk : nullKind m.type
    · cases hd : goodMode m.download
      · rw [installModsLoop_bad env m rest t hk hd] at h
        cases h
      · obtain ⟨t2, h2, _⟩ := installModsLoop_good env m t hk hd
        rw [h2 rest] at h
        rcases List.mem_cons.mp hx with rfl | hx
        · simp [passable, hd]
        · exact passable_of_installModsLoop env rest t2 h x hx
    · rw [installModsLoop_null env m rest t hk] at h
      rcases List.mem_cons.mp hx with rfl | hx
      · simp [passable, hk]
      · exact passable_of_installModsLoop env rest _ h x hx

/-- Without an asset of kind Unknown, a loop that gets past every asset leaves the
state of the task as it was and adds only log output to the log. -/
theorem installModsLoop_quiet (env : Env) :
    ∀ (mods : List VersionMod) (t : PackInstallTask), (∀ m ∈ mods, passable m = true) →
      (∀ m ∈ mods, m.type ≠ ModType.Unknown) →
      (installModsLoop env mods t).2.state = t.state ∧
      ∃ l, (installModsLoop env mods t).2.log = t.log ++ l ∧
        ∀ e ∈ l, (∃ items, e = Effect.qDebug items) ∨ (∃ items, e = Effect.qWarning items)
  | [], t, _, _ => ⟨rfl, [], by simp [installModsLoop], by simp⟩
  | m :: rest, t, hp, hu => by
    have hrest : ∀ x ∈ rest, passable x = true := fun x hx => hp x (List.mem_cons_of_mem _ hx)
    have hurest : ∀ x ∈ rest, x.type ≠ ModType.Unknown :=
      fun x hx => hu x (List.mem_cons_of_mem _ hx)
    cases hk : nullKind m.type
    · have hd : goodMode m.download = true := by
        have := hp m (List.mem_cons_self _ _)
        simpa [passable, hk] using this
      obtain ⟨t2, h, _, _, _, _, _, c4, _, _, l1, c8, c9⟩ := installModsLoop_good env m t hk hd
      obtain ⟨ih1, l2, ih2, ih3⟩ := installModsLoop_quiet env rest t2 hrest hurest
      rw [h rest]
      refine ⟨ih1.trans c4, l1 ++ l2, by rw [ih2, c8, List.append_assoc], ?_⟩
      intro e he
      rcases List.mem_append.mp he with h1 | h1
      · exact Or.inl (c9 e h1)
      · exact ih3 e h1
    · obtain ⟨ih1, l2, ih2, ih3⟩ :=
        installModsLoop_quiet env rest (getDirForModType env t m.type m.type_raw).2 hrest hurest
      rw [installModsLoop_null env m rest t hk]
      have hmu := hu m (List.mem_cons_self _ _)
      have hg : (getDirForModType env t m.type m.type_raw).2.state = t.state ∧
          ∃ l1, (getDirForModType env t m.type m.type_raw).2.log = t.log ++ l1 ∧
            ∀ e ∈ l1, ∃ items, e = Effect.qWarning items := by
        cases hty : m.type
        case Unknown => exact absurd hty hmu
        case Extract =>
          exact ⟨rfl, [Effect.qWarning ["Unsupported mod type: " ++ m.type_raw]], rfl,
            by simp⟩
        case Decomp =>
          exact ⟨rfl, [Effect.qWarning ["Unsupported mod type: " ++ m.type_raw]], rfl,
            by simp⟩
        all_goals exact ⟨rfl, [], by simp [getDirForModType], by simp⟩
      obtain ⟨g1, l1, g2, g3⟩ := hg
      refine ⟨ih1.trans g1, l1 ++ l2, by rw [ih2, g2, List.append_assoc], ?_⟩
      intro e he
      rcases List.mem_append.mp he with h1 | h1
      · exact Or.inr (g3 e h1)
      · exact ih3 e h1

/-! ## Properties of `install` -/

theorem newCalls_of_log {t t2 : PackInstallTask} {l : List Effect} (h : t2.log = t.log ++ l) :
    newCalls t t2 = l := by
  simp [newCalls, h]

theorem containsLabel_append (p label : String) : containsLabel (p ++ label) label := by
  unfold containsLabel
  rw [String.data_append]
  exact (List.suffix_append _ _).isInfix

theorem install_forge (env : Env) (t : PackInstallTask) (h : t.m_version.loader.type = "forge") :
    newCalls t (install env t) = installCallsLoader env t "net.minecraftforge" := by
  apply newCalls_of_log
  simp [install, call, emitSucceeded, h, installCallsLoader]

theorem install_fabric (env : Env) (t : PackInstallTask)
    (h : t.m_version.loader.type = "fabric") :
    newCalls t (install env t) = installCallsLoader env t "net.fabricmc.fabric-loader" := by
  apply newCalls_of_log
  simp [install, call, emitSucceeded, h, installCallsLoader]

theorem install_vanilla (env : Env) (t : PackInstallTask) (h : t.m_version.loader.type = "") :
    newCalls t (install env t) = installCallsVanilla env t := by
  apply newCalls_of_log
  simp [install, call, emitSucceeded, h, installCallsVanilla]

theorem install_unknown (env : Env) (t : PackInstallTask)
    (h1 : t.m_version.loader.type ≠ "forge") (h2 : t.m_version.loader.type ≠ "fabric")
    (h3 : t.m_version.loader.type ≠ "") :
    newCalls t (install env t) = installCallsUnknown env t ∧
    (install env t).state = (match t.state with
      | TaskState.running =>
        TaskState.failed (env.tr "Unknown loader type: " ++ t.m_version.loader.type)
      | s => s) := by
  refine ⟨?_, ?_⟩
  · apply newCalls_of_log
    simp [install, call, emitFailed, h1, h2, h3, installCallsUnknown]
  · simp [install, call, emitFailed, h1, h2, h3]

/-! ## Properties of `installMods` -/

theorem modsEntry_loopStep_fields (env : Env) (t : PackInstallTask) :
    (modsEntry env t).m_version = t.m_version ∧ (modsEntry env t).m_stagingPath = t.m_stagingPath ∧
    (modsEntry env t).state = t.state ∧ (modsEntry env t).extractPending = t.extractPending ∧
    (modsEntry env t).log = t.log ++ [Effect.setStatus (env.tr "Downloading mods...")] := by
  simp [modsEntry, call]

theorem installMods_eq (env : Env) (t : PackInstallTask) :
    installMods env t =
      if (installModsLoop env t.m_version.mods (modsEntry env t)).1 then
        match ((installModsLoop env t.m_version.mods (modsEntry env t)).2.jobPtr.map
            fun (j : NetJob) =>
              (j.connect Slot.modsSucceeded Slot.modsFailed (some Slot.modsProgress)).start) with
        | some j =>
          ({ (installModsLoop env t.m_version.mods (modsEntry env t)).2 with
              jobPtr := some j }).call (Effect.jobStart j)
        | none => { (installModsLoop env t.m_version.mods (modsEntry env t)).2 with jobPtr := none }
      else (installModsLoop env t.m_version.mods (modsEntry env t)).2 := by
  unfold installMods
  simp only [modsEntry, call]
  split
  · split <;> simp_all
  · rfl

theorem installMods_complete (env : Env) (t : PackInstallTask)
    (hp : ∀ m ∈ t.m_version.mods, passable m = true) :
    installMods env t =
      ({ (installModsLoop env t.m_version.mods (modsEntry env t)).2 with
          jobPtr := some (batchJob env t) }).call (Effect.jobStart (batchJob env t)) ∧
    (installModsLoop env t.m_version.mods (modsEntry env t)).2.jarmods =
      (t.m_version.mods.filter (fun m => jarKind m.type)).map (destination env t) := by
  obtain ⟨h1, h2, h3⟩ := installModsLoop_complete env t.m_version.mods (modsEntry env t) hp
  have hf := modsEntry_loopStep_fields env t
  obtain ⟨e1, e2⟩ := LoopStep.of_good env t (modsEntry env t) hf.1 hf.2.1
  refine ⟨?_, ?_⟩
  · rw [installMods_eq, h1, h3, e2]
    simp [modsEntry, call, NetJob.new, NetJob.connect, NetJob.start, batchJob]
  · rw [h2, e1]
    simp [modsEntry]

theorem installMods_first_bad (env : Env) (t : PackInstallTask)
    (pre post : List VersionMod) (a : VersionMod)
    (hm : t.m_version.mods = pre ++ a :: post) (hpre : ∀ m ∈ pre, passable m = true)
    (hk : nullKind a.type = false) (hd : goodMode a.download = false) :
    installMods env t
      = (installModsLoop env pre (modsEntry env t)).2.emitFailed (modeFailure env a) := by
  rw [installMods_eq, hm, installModsLoop_first_bad env a post hk hd pre _ hpre]
  simp

/-- The loop only adds log output and failure signals to the log. -/
theorem loop_calls (env : Env) (t : PackInstallTask) (mods : List VersionMod) :
    ∃ l, (installModsLoop env mods (modsEntry env t)).2.log
        = t.log ++ Effect.setStatus (env.tr "Downloading mods...") :: l ∧
      ∀ e ∈ l, (∃ items, e = Effect.qDebug items) ∨ (∃ items, e = Effect.qWarning items) ∨
        (∃ reason, e = Effect.emitFailed reason) := by
  obtain ⟨_, _, _, _, _, _, ⟨l, hl, hl2⟩, _⟩ := LoopStep.installModsLoop env mods (modsEntry env t)
  refine ⟨l, ?_, hl2⟩
  rw [hl, (modsEntry_loopStep_fields env t).2.2.2.2]
  simp

theorem laterStageCall_of_noise {e : Effect}
    (h : (∃ items, e = Effect.qDebug items) ∨ (∃ items, e = Effect.qWarning items) ∨
      (∃ reason, e = Effect.emitFailed reason)) : laterStageCall e = false := by
  rcases h with ⟨_, rfl⟩ | ⟨_, rfl⟩ | ⟨_, rfl⟩ <;> rfl

theorem passable_of_startsBatchJob (env : Env) (t : PackInstallTask)
    (h : startsBatchJob env t) : ∀ m ∈ t.m_version.mods, passable m = true := by
  apply passable_of_installModsLoop env t.m_version.mods (modsEntry env t)
  by_contra hne
  obtain ⟨j, hj⟩ := h
  obtain ⟨l, hl, hl2⟩ := loop_calls env t t.m_version.mods
  rw [installMods_eq] at hj
  simp only [hne] at hj
  rw [newCalls_of_log (by rw [if_neg (by simp)]; exact hl)] at hj
  rcases List.mem_cons.mp hj with h1 | h1
  · cases h1
  · have := laterStageCall_of_noise (hl2 _ h1)
    simp [laterStageCall] at this

theorem startsBatchJob_of_passable (env : Env) (t : PackInstallTask)
    (hp : ∀ m ∈ t.m_version.mods, passable m = true) : startsBatchJob env t := by
  refine ⟨batchJob env t, ?_⟩
  obtain ⟨l, hl, _⟩ := loop_calls env t t.m_version.mods
  rw [(installMods_complete env t hp).1]
  rw [newCalls_of_log (l := Effect.setStatus (env.tr "Downloading mods...") :: l ++
    [Effect.jobStart (batchJob env t)]) (by simp [call, hl])]
  simp

theorem installMods_complete_fields (env : Env) (t : PackInstallTask)
    (hp : ∀ m ∈ t.m_version.mods, passable m = true) :
    (installMods env t).jarmods
      = (t.m_version.mods.filter (fun m => jarKind m.type)).map (destination env t) ∧
    (installMods env t).jobPtr = some (batchJob env t) ∧
    (installMods env t).m_version = t.m_version ∧
    (installMods env t).m_stagingPath = t.m_stagingPath ∧
    (installMods env t).m_instName = t.m_instName ∧
    (installMods env t).m_instIcon = t.m_instIcon ∧
    (installMods env t).extractPending = t.extractPending ∧
    (∃ l, newCalls t (installMods env t)
        = Effect.setStatus (env.tr "Downloading mods...") :: l
          ++ [Effect.jobStart (batchJob env t)] ∧
      ∀ e ∈ l, (∃ items, e = Effect.qDebug items) ∨ (∃ items, e = Effect.qWarning items) ∨
        (∃ reason, e = Effect.emitFailed reason)) := by
  obtain ⟨h1, h2⟩ := installMods_complete env t hp
  obtain ⟨a1, a2, a3, a4, a5, _, _, _⟩ :=
    LoopStep.installModsLoop env t.m_version.mods (modsEntry env t)
  obtain ⟨l, hl, hl2⟩ := loop_calls env t t.m_version.mods
  rw [h1]
  refine ⟨h2, rfl, a1, a2, a3, a4, a5, l, ?_, hl2⟩
  apply newCalls_of_log
  simp [call, hl]

theorem dirOf_jarKind (env : Env) (t : PackInstallTask) (m : VersionMod)
    (h : jarKind m.type = true) : dirOf env t m = "jarmods" := by
  unfold dirOf
  cases hk : m.type <;> simp_all [jarKind, getDirForModType]

theorem deliver_succeeded_installMods (env : Env) (t : PackInstallTask)
    (hp : ∀ m ∈ t.m_version.mods, passable m = true) :
    deliver env Event.jobSucceeded (installMods env t)
      = install env { installMods env t with jobPtr := none } := by
  have hj := (installMods_complete_fields env t hp).2.1
  simp [deliver, hj, batchJob, installMods_succeeded]

theorem deliver_failed_installMods (env : Env) (t : PackInstallTask) (reason : String)
    (hp : ∀ m ∈ t.m_version.mods, passable m = true) :
    deliver env (Event.jobFailed reason) (installMods env t)
      = installMods_failed reason (installMods env t) := by
  have hj := (installMods_complete_fields env t hp).2.1
  simp [deliver, hj, batchJob]

/-! ## Properties of signal delivery -/

/-- No signal has a receiver when no extraction is pending and no started job is
held. -/
theorem deliver_idle (env : Env) (e : Event) (t : PackInstallTask)
    (hx : t.extractPending = false) (hj : ∀ j, t.jobPtr = some j → j.started = false) :
    deliver env e t = t := by
  cases e <;> simp only [deliver, hx]
  all_goals first
    | rfl
    | (cases hjp : t.jobPtr with
       | none => rfl
       | some j => simp [hj j hjp])

theorem deliverAll_idle (env : Env) (t : PackInstallTask)
    (hx : t.extractPending = false) (hj : ∀ j, t.jobPtr = some j → j.started = false) :
    ∀ evs : List Event, deliverAll env evs t = t
  | [] => rfl
  | e :: es => by
    rw [deliverAll, deliver_idle env e t hx hj]
    exact deliverAll_idle env t hx hj es

theorem saveNow_mem_of_savedBeforeResume :
    ∀ (l : List Effect) (saved : Bool), savedBeforeResume saved l = true →
      ∀ pre post, l = pre ++ Effect.resumeSave :: post → saved = true ∨ Effect.saveNow ∈ pre
  | [], _, _, pre, post, h => by simp at h
  | e :: rest, saved, hs, pre, post, h => by
    cases pre with
    | nil =>
      simp only [List.nil_append, List.cons.injEq] at h
      obtain ⟨rfl, _⟩ := h
      simp only [savedBeforeResume, Bool.and_eq_true] at hs
      exact Or.inl hs.1
    | cons p pre2 =>
      simp only [List.cons_append, List.cons.injEq] at h
      obtain ⟨rfl, hrest⟩ := h
      by_cases he : e = Effect.saveNow
      · exact Or.inr (by simp [he])
      · have hs2 : savedBeforeResume saved rest = true := by
          cases e
          case resumeSave =>
            simp only [savedBeforeResume, Bool.and_eq_true] at hs
            exact hs.2
          all_goals simp_all [savedBeforeResume]
        rcases saveNow_mem_of_savedBeforeResume rest saved hs2 pre2 post hrest with h1 | h1
        · exact Or.inl h1
        · exact Or.inr (List.mem_cons_of_mem _ h1)

theorem install_cases (env : Env) (t : PackInstallTask) :
    newCalls t (install env t) = installCallsLoader env t "net.minecraftforge" ∨
    newCalls t (install env t) = installCallsLoader env t "net.fabricmc.fabric-loader" ∨
    newCalls t (install env t) = installCallsVanilla env t ∨
    (newCalls t (install env t) = installCallsUnknown env t ∧
      t.m_version.loader.type ≠ "forge" ∧ t.m_version.loader.type ≠ "fabric" ∧
      t.m_version.loader.type ≠ "") := by
  by_cases h1 : t.m_version.loader.type = "forge"
  · exact Or.inl (install_forge env t h1)
  · by_cases h2 : t.m_version.loader.type = "fabric"
    · exact Or.inr (Or.inl (install_fabric env t h2))
    · by_cases h3 : t.m_version.loader.type = ""
      · exact Or.inr (Or.inr (Or.inl (install_vanilla env t h3)))
      · exact Or.inr (Or.inr (Or.inr ⟨(install_unknown env t h1 h2 h3).1, h1, h2, h3⟩))

/-! ## The classifier -/

/-- C3: for every runtime id and raw label, `getDirForModType` returns "jarmods" for
Jar and Forge, "mods" for Mods, "mods/r" for Dependency, "mods/ic2" for Ic2Lib,
"mods/denlib" for DenLib, "coremods", "plugins" and "resourcepacks" for Coremods,
Plugins and ResourcePack, and no path for MCPC, Extract and Decomp; for no kind other
than Unknown does it fail the task, and the outcome depends only on the kind and the
runtime id. (The kind Flan, which the table leaves out, goes to "Flan".) -/
theorem getDirForModType_table (env : Env) (t : PackInstallTask) (raw : String) :
    (getDirForModType env t ModType.Jar raw).1 = some "jarmods" ∧
    (getDirForModType env t ModType.Forge raw).1 = some "jarmods" ∧
    (getDirForModType env t ModType.Mods raw).1 = some "mods" ∧
    (getDirForModType env t ModType.Dependency raw).1
      = some ("mods" ++ "/" ++ t.m_version.pack.minecraft) ∧
    (getDirForModType env t ModType.Ic2Lib raw).1 = some "mods/ic2" ∧
    (getDirForModType env t ModType.DenLib raw).1 = some "mods/denlib" ∧
    (getDirForModType env t ModType.Coremods raw).1 = some "coremods" ∧
    (getDirForModType env t ModType.Plugins raw).1 = some "plugins" ∧
    (getDirForModType env t ModType.ResourcePack raw).1 = some "resourcepacks" ∧
    (getDirForModType env t ModType.MCPC raw).1 = none ∧
    (getDirForModType env t ModType.Extract raw).1 = none ∧
    (getDirForModType env t ModType.Decomp raw).1 = none ∧
    (∀ k : ModType, k ≠ ModType.Unknown →
      (getDirForModType env t k raw).2.state = t.state ∧
      ∀ reason, Effect.emitFailed reason ∉ newCalls t (getDirForModType env t k raw).2) ∧
    (∀ (env2 : Env) (t2 : PackInstallTask) (raw2 : String) (k : ModType),
      t2.m_version.pack.minecraft = t.m_version.pack.minecraft →
      (getDirForModType env2 t2 k raw2).1 = (getDirForModType env t k raw).1) ∧
    (getDirForModType env t ModType.Flan raw).1 = some "Flan" := by
  refine ⟨rfl, rfl, rfl, rfl, ?_, ?_, rfl, rfl, rfl, rfl, rfl, rfl, ?_, ?_, rfl⟩
  · simp only [getDirForModType, PathCombine]
    decide
  · simp only [getDirForModType, PathCombine]
    decide
  · intro k hk
    cases k <;> simp [getDirForModType, call, newCalls] at hk ⊢
  · intro env2 t2 raw2 k h
    exact getDirForModType_fst_env env2 env t2 t k raw2 raw h

/-- C3, at a concrete task: runtime id 1.12.2. -/
theorem getDirForModType_table_witness :
    (getDirForModType env0 (taskWith (forgePack [])) ModType.Dependency "dependency").1
      = some "mods/1.12.2" ∧
    (getDirForModType env0 (taskWith (forgePack [])) ModType.Extract "extract").2.state
      = TaskState.running ∧
    (getDirForModType env0 (taskWith (forgePack [modA])) ModType.Ic2Lib "x").1
      = (getDirForModType env0 (taskWith (forgePack [])) ModType.Ic2Lib "extract").1 :=
  ⟨(getDirForModType_table env0 (taskWith (forgePack [])) "dependency").2.2.2.1,
   ((getDirForModType_table env0 (taskWith (forgePack [])) "extract").2.2.2.2.2.2.2.2.2.2.2.2.1
      ModType.Extract (by decide)).1,
   (getDirForModType_table env0 (taskWith (forgePack [])) "extract").2.2.2.2.2.2.2.2.2.2.2.2.2.1
      env0 (taskWith (forgePack [modA])) "x" ModType.Ic2Lib rfl⟩

/-! ## The Assemble step -/

/-- C4: `install` registers net.minecraft at the runtime id, always and mandatory;
in addition net.minecraftforge at the loader version for the loader kind "forge",
net.fabricmc.fabric-loader at the loader version for "fabric", and nothing for the
empty kind; for any other kind it registers no loader, its last call is `emitFailed`
with a message that ends in the kind, it does not call `emitSucceeded`, and a running
task ends Failed with that message. -/
theorem install_registers_components (env : Env) (t : PackInstallTask) :
    (t.m_version.loader.type = "forge" →
      registrations (newCalls t (install env t))
        = [("net.minecraft", t.m_version.pack.minecraft, true),
           ("net.minecraftforge", t.m_version.loader.version, true)]) ∧
    (t.m_version.loader.type = "fabric" →
      registrations (newCalls t (install env t))
        = [("net.minecraft", t.m_version.pack.minecraft, true),
           ("net.fabricmc.fabric-loader", t.m_version.loader.version, true)]) ∧
    (t.m_version.loader.type = "" →
      registrations (newCalls t (install env t))
        = [("net.minecraft", t.m_version.pack.minecraft, true)]) ∧
    (t.m_version.loader.type ≠ "forge" → t.m_version.loader.type ≠ "fabric" →
      t.m_version.loader.type ≠ "" →
      registrations (newCalls t (install env t))
        = [("net.minecraft", t.m_version.pack.minecraft, true)] ∧
      (newCalls t (install env t)).getLast?
        = some (Effect.emitFailed (env.tr "Unknown loader type: " ++ t.m_version.loader.type)) ∧
      containsLabel (env.tr "Unknown loader type: " ++ t.m_version.loader.type)
        t.m_version.loader.type ∧
      Effect.emitSucceeded ∉ newCalls t (install env t) ∧
      (t.state = TaskState.running → (install env t).state
        = TaskState.failed (env.tr "Unknown loader type: " ++ t.m_version.loader.type))) := by
  refine ⟨fun h => ?_, fun h => ?_, fun h => ?_, fun h1 h2 h3 => ?_⟩
  · rw [install_forge env t h]; rfl
  · rw [install_fabric env t h]; rfl
  · rw [install_vanilla env t h]; rfl
  · obtain ⟨hc, hs⟩ := install_unknown env t h1 h2 h3
    rw [hc]
    refine ⟨rfl, rfl, containsLabel_append _ _, by simp [installCallsUnknown], ?_⟩
    intro hr
    rw [hs, hr]

/-- C4, the scenario of the spec: loader forge 14.23.5.2854 on runtime 1.12.2. -/
theorem install_registers_components_witness :
    (taskWith (forgePack [])).m_version.loader.type = "forge" ∧
    registrations (newCalls (taskWith (forgePack [])) (install env0 (taskWith (forgePack []))))
      = [("net.minecraft", "1.12.2", true), ("net.minecraftforge", "14.23.5.2854", true)] :=
  ⟨rfl, (install_registers_components env0 (taskWith (forgePack []))).1 rfl⟩

/-- C8: when `install` reports success its calls are, in this order, the component
registrations, `installJarMods`, `saveNow`, `setName`, `setIconKey`, `resumeSave` and
then `emitSucceeded`; in every run a `resumeSave` has a `saveNow` before it; and for
an unknown loader kind neither `saveNow` nor `resumeSave` is called. -/
theorem install_effect_order (env : Env) (t : PackInstallTask) :
    (Effect.emitSucceeded ∈ newCalls t (install env t) →
      ∃ regs : List Effect,
        (∀ e ∈ regs, ∃ uid version, e = Effect.setComponentVersion uid version true) ∧
        newCalls t (install env t) =
          [Effect.setStatus (env.tr "Installing modpack"),
           Effect.registerSetting "InstanceType" "Legacy",
           Effect.settingsSet "InstanceType" "OneSix",
           Effect.buildingFromScratch] ++ regs ++
          [Effect.installJarMods t.jarmods, Effect.saveNow, Effect.setName t.m_instName,
           Effect.setIconKey t.m_instIcon, Effect.resumeSave, Effect.emitSucceeded]) ∧
    (∀ pre post, newCalls t (install env t) = pre ++ Effect.resumeSave :: post →
      Effect.saveNow ∈ pre) ∧
    (t.m_version.loader.type ≠ "forge" → t.m_version.loader.type ≠ "fabric" →
      t.m_version.loader.type ≠ "" →
      Effect.saveNow ∉ newCalls t (install env t) ∧
      Effect.resumeSave ∉ newCalls t (install env t)) := by
  refine ⟨fun hs => ?_, fun pre post h => ?_, fun h1 h2 h3 => ?_⟩
  · rcases install_cases env t with h | h | h | ⟨h, _⟩
    · exact ⟨[Effect.setComponentVersion "net.minecraft" t.m_version.pack.minecraft true,
          Effect.setComponentVersion "net.minecraftforge" t.m_version.loader.version true],
        by simp, by rw [h]; rfl⟩
    · exact ⟨[Effect.setComponentVersion "net.minecraft" t.m_version.pack.minecraft true,
          Effect.setComponentVersion "net.fabricmc.fabric-loader" t.m_version.loader.version
            true],
        by simp, by rw [h]; rfl⟩
    · exact ⟨[Effect.setComponentVersion "net.minecraft" t.m_version.pack.minecraft true],
        by simp, by rw [h]; rfl⟩
    · rw [h] at hs
      simp [installCallsUnknown] at hs
  · have hscan : savedBeforeResume false (newCalls t (install env t)) = true := by
      rcases install_cases env t with h | h | h | ⟨h, _⟩ <;> rw [h] <;> rfl
    rcases saveNow_mem_of_savedBeforeResume _ false hscan pre post h with h1 | h1
    · cases h1
    · exact h1
  · rw [(install_unknown env t h1 h2 h3).1]
    simp [installCallsUnknown]

/-- C8, at the forge manifest: the run reports success, so the order holds there. -/
theorem install_effect_order_witness :
    Effect.emitSucceeded
      ∈ newCalls (taskWith (forgePack [])) (install env0 (taskWith (forgePack []))) ∧
    ∃ regs : List Effect,
      (∀ e ∈ regs, ∃ uid version, e = Effect.setComponentVersion uid version true) ∧
      newCalls (taskWith (forgePack [])) (install env0 (taskWith (forgePack []))) =
        [Effect.setStatus "Installing modpack",
         Effect.registerSetting "InstanceType" "Legacy",
         Effect.settingsSet "InstanceType" "OneSix",
         Effect.buildingFromScratch] ++ regs ++
        [Effect.installJarMods [], Effect.saveNow, Effect.setName "My Pack",
         Effect.setIconKey "icon", Effect.resumeSave, Effect.emitSucceeded] :=
  ⟨by decide, (install_effect_order env0 (taskWith (forgePack []))).1 (by decide)⟩

/-! ## The FetchAssets stage -/

/-- C6: when `installMods` gets to the start of the batch job, the jar-mod list is
the list of destination paths of the assets of kind Jar or Forge, one per asset and
in manifest order, whatever the list held before and whatever other assets lie in
between; `install`, run by the success of the batch job, passes no other list to
`installJarMods`, and passes this one whenever it knows the loader kind. -/
theorem jarmods_manifest_order (env : Env) (t : PackInstallTask) (h : startsBatchJob env t) :
    (installMods env t).jarmods
      = (t.m_version.mods.filter (fun m => jarKind m.type)).map
          (fun m => t.m_stagingPath ++ "/" ++ "minecraft" ++ "/" ++ "jarmods" ++ "/" ++ m.file) ∧
    (∀ paths, Effect.installJarMods paths
        ∈ newCalls (installMods env t) (deliver env Event.jobSucceeded (installMods env t)) →
      paths = (installMods env t).jarmods) ∧
    (t.m_version.loader.type = "forge" ∨ t.m_version.loader.type = "fabric" ∨
        t.m_version.loader.type = "" →
      Effect.installJarMods (installMods env t).jarmods
        ∈ newCalls (installMods env t) (deliver env Event.jobSucceeded (installMods env t))) := by
  have hp := passable_of_startsBatchJob env t h
  obtain ⟨f1, _, f3, _⟩ := installMods_complete_fields env t hp
  have hd := deliver_succeeded_installMods env t hp
  have hnc : newCalls (installMods env t) (deliver env Event.jobSucceeded (installMods env t))
      = newCalls { installMods env t with jobPtr := none }
          (install env { installMods env t with jobPtr := none }) := by
    rw [hd]; rfl
  refine ⟨?_, ?_, ?_⟩
  · rw [f1]
    apply List.map_congr_left
    intro m hm
    have hj : jarKind m.type = true := by simpa using (List.mem_filter.mp hm).2
    simp only [destination, dirOf_jarKind env t m hj, PathCombine4_eq]
  · intro paths hmem
    rw [hnc] at hmem
    rcases install_cases env { installMods env t with jobPtr := none } with c | c | c | ⟨c, _⟩ <;>
      rw [c] at hmem <;>
      simp [installCallsLoader, installCallsVanilla, installCallsUnknown] at hmem
    all_goals exact hmem
  · intro hk
    rw [hnc]
    have hl : ({ installMods env t with jobPtr := none } : PackInstallTask).m_version.loader.type
        = t.m_version.loader.type := by
      show (installMods env t).m_version.loader.type = _
      rw [f3]
    rcases hk with hk | hk | hk
    · rw [install_forge env _ (hl.trans hk)]
      simp [installCallsLoader]
    · rw [install_fabric env _ (hl.trans hk)]
      simp [installCallsLoader]
    · rw [install_vanilla env _ (hl.trans hk)]
      simp [installCallsVanilla]

/-- C6, at a manifest with a skipped server jar, a jar mod and a mod: the batch job
is started and the jar-mod list holds the one jar mod. -/
theorem jarmods_manifest_order_witness :
    startsBatchJob env0 (taskWith (forgePack [modServerJar, modJar, modA])) ∧
    (installMods env0 (taskWith (forgePack [modServerJar, modJar, modA]))).jarmods
      = ([modServerJar, modJar, modA].filter (fun m => jarKind m.type)).map
          (fun m => "/staging" ++ "/" ++ "minecraft" ++ "/" ++ "jarmods" ++ "/" ++ m.file) :=
  ⟨startsBatchJob_of_passable env0 _ (by decide),
   (jarmods_manifest_order env0 (taskWith (forgePack [modServerJar, modJar, modA]))
      (startsBatchJob_of_passable env0 _ (by decide))).1⟩

/-- C10: for a manifest with no asset of kind Unknown and no asset that is not
skipped and has download mode Browser or Unknown, `installMods` starts one job, as
its last call; the job holds, in manifest order, one download per asset whose kind
is not MCPC, Extract or Decomp, to the staging path, "minecraft", the directory of
the kind and the file name joined by slashes, from the download server URL followed
by the asset URL for mode Server and from the asset URL itself otherwise (Direct). -/
theorem installMods_batch (env : Env) (t : PackInstallTask)
    (h1 : ∀ m ∈ t.m_version.mods, m.type ≠ ModType.Unknown)
    (h2 : ∀ m ∈ t.m_version.mods, skippedKind m.type = false → goodMode m.download = true) :
    (∃ l, newCalls t (installMods env t) = l ++ [Effect.jobStart (batchJob env t)] ∧
      ∀ e ∈ l, ∀ j, e ≠ Effect.jobStart j) ∧
    (installMods env t).jobPtr = some (batchJob env t) ∧
    (batchJob env t).started = true ∧
    (batchJob env t).actions
      = (t.m_version.mods.filter (fun m => !skippedKind m.type)).map
          (fun m => NetAction.makeFile
            (if m.download = DownloadType.Server then env.ATL_DOWNLOAD_SERVER ++ m.url
             else m.url)
            (t.m_stagingPath ++ "/" ++ "minecraft" ++ "/" ++ dirOf env t m ++ "/" ++ m.file)) := by
  have hnull : ∀ m ∈ t.m_version.mods, nullKind m.type = skippedKind m.type := by
    intro m hm
    have := h1 m hm
    simp [nullKind, this]
  have hp : ∀ m ∈ t.m_version.mods, passable m = true := by
    intro m hm
    cases hs : skippedKind m.type
    · simp [passable, h2 m hm hs]
    · simp [passable, nullKind, hs]
  obtain ⟨_, f2, _, _, _, _, _, l, hl, hl2⟩ := installMods_complete_fields env t hp
  refine ⟨⟨Effect.setStatus (env.tr "Downloading mods...") :: l, hl, ?_⟩, f2, rfl, ?_⟩
  · intro e he j hej
    rcases List.mem_cons.mp he with h | h
    · rw [hej] at h; cases h
    · have := laterStageCall_of_noise (hl2 e h)
      rw [hej] at this
      simp [laterStageCall] at this
  · have hfilter : t.m_version.mods.filter (fun m => !nullKind m.type)
        = t.m_version.mods.filter (fun m => !skippedKind m.type) :=
      List.filter_congr (fun m hm => by rw [hnull m hm])
    simp only [batchJob, hfilter]
    apply List.map_congr_left
    intro m _
    simp only [downloadOf, destination, PathCombine4_eq, sourceUrl]
    cases m.download <;> simp

/-- C10, at a manifest with a skipped server jar, a jar mod and a mod. -/
theorem installMods_batch_witness :
    (∀ m ∈ (taskWith (forgePack [modServerJar, modJar, modA])).m_version.mods,
      m.type ≠ ModType.Unknown) ∧
    (installMods env0 (taskWith (forgePack [modServerJar, modJar, modA]))).jobPtr
      = some (batchJob env0 (taskWith (forgePack [modServerJar, modJar, modA]))) ∧
    (batchJob env0 (taskWith (forgePack [modServerJar, modJar, modA]))).actions
      = [NetAction.makeFile "http://h/j.jar" "/staging/minecraft/jarmods/j.jar",
         NetAction.makeFile "https://download.example/mods/a.jar"
           "/staging/minecraft/mods/a.jar"] :=
  ⟨by decide,
   (installMods_batch env0 (taskWith (forgePack [modServerJar, modJar, modA]))
      (by decide) (by decide)).2.1,
   by decide⟩

/-- C5, refuted as stated. In the manifest with an asset of kind Unknown followed by
a browser-only mod, the mod is the one asset that is neither skipped nor rejected and
has mode Browser, yet the task ends Failed with the message for the Unknown kind,
which does not contain "browser". In the manifest with a browser-only mod followed by
a mod of unrecognised download mode "torrent", the task ends Failed with the message
for the first of the two, which does not contain "torrent". -/
theorem installMods_bad_mode_label_unreported :
    (modBrowser ∈ (taskWith (forgePack [modWeird, modBrowser])).m_version.mods ∧
      nullKind modBrowser.type = false ∧
      modBrowser.download = DownloadType.Browser ∧
      modBrowser.download_raw = "browser" ∧
      (taskWith (forgePack [modWeird, modBrowser])).state = TaskState.running ∧
      (installMods env0 (taskWith (forgePack [modWeird, modBrowser]))).state
        = TaskState.failed "Unknown mod type: weirdtype" ∧
      ¬ containsLabel "Unknown mod type: weirdtype" "browser") ∧
    (modOddMode ∈ (taskWith (forgePack [modBrowser, modOddMode])).m_version.mods ∧
      nullKind modOddMode.type = false ∧
      modOddMode.download = DownloadType.Unknown ∧
      modOddMode.download_raw = "torrent" ∧
      (installMods env0 (taskWith (forgePack [modBrowser, modOddMode]))).state
        = TaskState.failed "Unsupported download type: browser" ∧
      newCalls (taskWith (forgePack [modBrowser, modOddMode]))
          (installMods env0 (taskWith (forgePack [modBrowser, modOddMode])))
        = [Effect.setStatus "Downloading mods...",
           Effect.emitFailed "Unsupported download type: browser"] ∧
      ¬ containsLabel "Unsupported download type: browser" "torrent") := by
  decide

/-- C5, amended: when every asset before `a` is of a kind other than Unknown and is
skipped or has download mode Server or Direct, and `a` is neither skipped nor of kind
Unknown and has download mode Browser or Unknown, `installMods` fails the task at
`a`: it calls `emitFailed` once, as its last call, with a message that ends in the
raw download-mode label of `a`, and a running task ends Failed with that message; it
starts no job and makes no call of a later stage, the job it holds is not started
and has no slot connected, and no signal is delivered afterwards. An asset of a
skipped kind is passed over whatever its download mode. -/
theorem installMods_fails_at_first_bad_mode (env : Env) (t : PackInstallTask)
    (pre post : List VersionMod) (a : VersionMod)
    (hm : t.m_version.mods = pre ++ a :: post)
    (hpre : ∀ m ∈ pre, m.type ≠ ModType.Unknown ∧
      (skippedKind m.type = true ∨ goodMode m.download = true))
    (hk : nullKind a.type = false) (hd : goodMode a.download = false) :
    (newCalls t (installMods env t)).getLast? = some (Effect.emitFailed (modeFailure env a)) ∧
    containsLabel (modeFailure env a) a.download_raw ∧
    (∀ reason, Effect.emitFailed reason ∈ newCalls t (installMods env t) →
      reason = modeFailure env a) ∧
    (t.state = TaskState.running →
      (installMods env t).state = TaskState.failed (modeFailure env a)) ∧
    (∀ e ∈ newCalls t (installMods env t), laterStageCall e = false) ∧
    (∃ j, (installMods env t).jobPtr = some j ∧ j.started = false ∧ j.succeeded = none) ∧
    (t.extractPending = false →
      ∀ evs, deliverAll env evs (installMods env t) = installMods env t) ∧
    (∀ (m : VersionMod) (rest : List VersionMod) (t0 : PackInstallTask)
        (d : DownloadType) (label : String), skippedKind m.type = true →
      installModsLoop env ({ m with download := d, download_raw := label } :: rest) t0
        = installModsLoop env (m :: rest) t0) := by
  have hnu : ∀ m ∈ pre, m.type ≠ ModType.Unknown := fun m h => (hpre m h).1
  have hpass : ∀ m ∈ pre, passable m = true := by
    intro m h
    rcases (hpre m h).2 with h1 | h1
    · simp [passable, nullKind, h1]
    · simp [passable, h1]
  have heq := installMods_first_bad env t pre post a hm hpass hk hd
  obtain ⟨_, _, _, _, a5, ⟨acts, a6⟩, _, _⟩ := LoopStep.installModsLoop env pre (modsEntry env t)
  obtain ⟨hst, l, hl, hl2⟩ := installModsLoop_quiet env pre (modsEntry env t) hpass hnu
  have hcalls : newCalls t (installMods env t)
      = Effect.setStatus (env.tr "Downloading mods...") :: l
        ++ [Effect.emitFailed (modeFailure env a)] := by
    apply newCalls_of_log
    rw [heq]
    simp [emitFailed, hl, (modsEntry_loopStep_fields env t).2.2.2.2]
  have hjob : (installMods env t).jobPtr
      = some { NetJob.new (env.tr "Mod download") with actions := [] ++ acts } := by
    rw [heq]
    show (installModsLoop env pre (modsEntry env t)).2.jobPtr = _
    rw [a6]
    rfl
  have hpend : (installMods env t).extractPending = t.extractPending := by
    rw [heq]
    show (installModsLoop env pre (modsEntry env t)).2.extractPending = _
    rw [a5]
    rfl
  have hmem : ∀ e ∈ newCalls t (installMods env t),
      e = Effect.setStatus (env.tr "Downloading mods...") ∨
      ((∃ items, e = Effect.qDebug items) ∨ (∃ items, e = Effect.qWarning items)) ∨
      e = Effect.emitFailed (modeFailure env a) := by
    intro e he
    rw [hcalls] at he
    simp only [List.cons_append, List.mem_cons, List.mem_append, List.mem_singleton,
      List.not_mem_nil, or_false] at he
    rcases he with h | h | h
    · exact Or.inl h
    · exact Or.inr (Or.inl (hl2 e h))
    · exact Or.inr (Or.inr h)
  refine ⟨?_, ?_, ?_, ?_, ?_, ⟨_, hjob, rfl, rfl⟩, ?_, ?_⟩
  · rw [hcalls]
    exact List.getLast?_concat _
  · unfold modeFailure
    cases a.download <;> exact containsLabel_append _ _
  · intro reason hr
    rcases hmem _ hr with h | (⟨_, h⟩ | ⟨_, h⟩) | h
    · cases h
    · cases h
    · cases h
    · cases h
      rfl
  · intro hrun
    rw [heq]
    simp only [emitFailed, hst, (modsEntry_loopStep_fields env t).2.2.1, hrun]
  · intro e he
    rcases hmem e he with rfl | (⟨_, rfl⟩ | ⟨_, rfl⟩) | rfl <;> rfl
  · intro hx evs
    apply deliverAll_idle env _ (hpend.trans hx)
    intro j hj
    rw [hjob] at hj
    cases hj
    rfl
  · intro m rest t0 d label hs
    have hn : nullKind m.type = true := by simp [nullKind, hs]
    rw [installModsLoop_null env m rest t0 hn,
      installModsLoop_null env { m with download := d, download_raw := label } rest t0 hn]

/-- C5 amended, at a manifest with a skipped browser-only server jar, a browser-only
mod and a mod: the run stops at the browser-only mod and the task ends Failed. -/
theorem installMods_fails_at_first_bad_mode_witness :
    (taskWith (forgePack [modServerJar, modBrowser, modA])).m_version.mods
      = [modServerJar] ++ modBrowser :: [modA] ∧
    (∀ m ∈ [modServerJar], m.type ≠ ModType.Unknown ∧
      (skippedKind m.type = true ∨ goodMode m.download = true)) ∧
    (newCalls (taskWith (forgePack [modServerJar, modBrowser, modA]))
        (installMods env0 (taskWith (forgePack [modServerJar, modBrowser, modA])))).getLast?
      = some (Effect.emitFailed (modeFailure env0 modBrowser)) ∧
    (installMods env0 (taskWith (forgePack [modServerJar, modBrowser, modA]))).state
      = TaskState.failed (modeFailure env0 modBrowser) :=
  ⟨rfl, by decide,
   (installMods_fails_at_first_bad_mode env0
      (taskWith (forgePack [modServerJar, modBrowser, modA]))
      [modServerJar] [modA] modBrowser rfl (by decide) rfl rfl).1,
   (installMods_fails_at_first_bad_mode env0
      (taskWith (forgePack [modServerJar, modBrowser, modA]))
      [modServerJar] [modA] modBrowser rfl (by decide) rfl rfl).2.2.2.1 rfl⟩

/-- C1, the failing run: for the manifest with an asset of kind Unknown labelled
"weirdtype" followed by a mod, `installMods` reports the failure and goes on: the mod
is added to the job, the job is started, and on its success `install` runs to the
end (component set saved, configuration finalized, `emitSucceeded` called). -/
theorem installMods_unknown_kind_goes_on :
    (installMods env0 (taskWith (forgePack [modWeird, modA]))).state
      = TaskState.failed "Unknown mod type: weirdtype" ∧
    (installMods env0 (taskWith (forgePack [modWeird, modA]))).jobPtr
      = some { name := "Mod download",
               actions := [NetAction.makeFile "https://download.example/mods/a.jar"
                 "/staging/minecraft/mods/a.jar"],
               started := true,
               succeeded := some Slot.modsSucceeded,
               failed := some Slot.modsFailed,
               progress := some Slot.modsProgress } ∧
    (newCalls (taskWith (forgePack [modWeird, modA]))
        (installMods env0 (taskWith (forgePack [modWeird, modA])))).getLast?
      = (installMods env0 (taskWith (forgePack [modWeird, modA]))).jobPtr.map Effect.jobStart ∧
    newCalls (installMods env0 (taskWith (forgePack [modWeird, modA])))
        (deliver env0 Event.jobSucceeded (installMods env0 (taskWith (forgePack [modWeird, modA]))))
      = installCallsLoader env0 (taskWith (forgePack [modWeird, modA])) "net.minecraftforge" ∧
    (deliver env0 Event.jobSucceeded
        (installMods env0 (taskWith (forgePack [modWeird, modA])))).state
      = TaskState.failed "Unknown mod type: weirdtype" := by
  decide

/-! ## The FetchManifest stage -/

/-- When the body does not parse, `onDownloadSucceeded` releases the job, writes a
warning and clears the body; it makes no other call and leaves the state alone. -/
theorem parse_error_only_warns (env : Env) (t : PackInstallTask) (e : DomError)
    (h : env.setContent t.response = Except.error e) :
    onDownloadSucceeded env t =
      { t with jobPtr := none, response := "",
               log := t.log ++ [Effect.qWarning [env.argWidth
                 "Failed to fetch modpack data: %1 %2:3d!" e.errorMsg e.errorLine e.errorCol]] } := by
  simp [onDownloadSucceeded, h, call]

/-- C2, the failing run: the manifest job succeeds with the truncated body `<pack`;
`onDownloadSucceeded` only writes a warning: the task is still running, no
`emitFailed` was called, no job is held and no further signal has a receiver. -/
theorem onDownloadSucceeded_parse_error_not_failed :
    env0.setContent truncatedTask.response
      = Except.error { errorMsg := "unexpected end of file", errorLine := 1, errorCol := 6 } ∧
    truncatedTask.state = TaskState.running ∧
    (deliver env0 Event.jobSucceeded truncatedTask).state = TaskState.running ∧
    newCalls truncatedTask (deliver env0 Event.jobSucceeded truncatedTask)
      = [Effect.qWarning ["Failed to fetch modpack data: unexpected end of file %2:3d!"]] ∧
    (deliver env0 Event.jobSucceeded truncatedTask).jobPtr = none ∧
    (deliver env0 Event.jobSucceeded truncatedTask).extractPending = false := by
  refine ⟨rfl, ?_⟩
  decide

/-! ## Job failures -/

/-- The three failure slots do the same: release the job and call `emitFailed`. -/
theorem jobFailureHandled_of_slot (env : Env) (s : PackInstallTask) (reason : String)
    (j : NetJob) (hj : s.jobPtr = some j) (hs : j.started = true)
    (hf : j.failed = some Slot.onDownloadFailed ∨ j.failed = some Slot.configsFailed ∨
      j.failed = some Slot.modsFailed) :
    JobFailureHandled env s reason := by
  have hd : deliver env (Event.jobFailed reason) s
      = ({ s with jobPtr := none } : PackInstallTask).emitFailed reason := by
    rcases hf with hf | hf | hf <;>
      simp [deliver, hj, hs, hf, onDownloadFailed, installConfigs_failed, installMods_failed]
  unfold JobFailureHandled
  rw [hd]
  refine ⟨newCalls_of_log rfl, rfl, ?_, ?_⟩
  · intro hr
    simp [emitFailed, hr]
  · intro hx evs
    exact deliverAll_idle env (({ s with jobPtr := none } : PackInstallTask).emitFailed reason)
      hx (fun j2 hj2 => by cases hj2) evs

/-- In each of the three network stages the failure slot passes the reason on
unchanged: for the manifest job of `executeTask`, for the config job of
`installConfigs`, and for the batch job of `installMods` whenever that job was
started. -/
theorem jobFailureHandled_stages (env : Env) (t : PackInstallTask) (reason : String) :
    JobFailureHandled env (executeTask env t) reason ∧
    JobFailureHandled env (installConfigs env t) reason ∧
    (startsBatchJob env t → JobFailureHandled env (installMods env t) reason) := by
  refine ⟨?_, ?_, fun h => ?_⟩
  · exact jobFailureHandled_of_slot env _ reason _ rfl rfl (Or.inl rfl)
  · exact jobFailureHandled_of_slot env _ reason _ rfl rfl (Or.inr (Or.inl rfl))
  · have hp := passable_of_startsBatchJob env t h
    exact jobFailureHandled_of_slot env _ reason (batchJob env t)
      (installMods_complete_fields env t hp).2.1 rfl (Or.inr (Or.inr rfl))

/-- C9, the failing run: for the manifest with an asset of kind Unknown labelled
"weirdtype" followed by a mod, `installMods` starts the batch job on a task it has
already failed; when that job fails with the reason "timeout" the slot releases the
job and calls `emitFailed "timeout"`, but the task stays Failed with the earlier
reason, not with "timeout". -/
theorem batch_job_failure_reason_lost :
    (taskWith (forgePack [modWeird, modA])).state = TaskState.running ∧
    (installMods env0 (taskWith (forgePack [modWeird, modA]))).jobPtr.map NetJob.started
      = some true ∧
    (newCalls (taskWith (forgePack [modWeird, modA]))
        (installMods env0 (taskWith (forgePack [modWeird, modA])))).getLast?
      = (installMods env0 (taskWith (forgePack [modWeird, modA]))).jobPtr.map Effect.jobStart ∧
    newCalls (installMods env0 (taskWith (forgePack [modWeird, modA])))
        (deliver env0 (Event.jobFailed "timeout")
          (installMods env0 (taskWith (forgePack [modWeird, modA]))))
      = [Effect.emitFailed "timeout"] ∧
    (deliver env0 (Event.jobFailed "timeout")
        (installMods env0 (taskWith (forgePack [modWeird, modA])))).jobPtr = none ∧
    (deliver env0 (Event.jobFailed "timeout")
        (installMods env0 (taskWith (forgePack [modWeird, modA])))).state
      = TaskState.failed "Unknown mod type: weirdtype" ∧
    TaskState.failed "Unknown mod type: weirdtype" ≠ TaskState.failed "timeout" := by
  decide

/-! ## Abort -/

theorem emitFailed_not_aborted (t : PackInstallTask) (reason : String)
    (h : t.state ≠ TaskState.aborted) : (t.emitFailed reason).state ≠ TaskState.aborted := by
  simp only [emitFailed]
  cases hs : t.state <;> simp_all

theorem emitSucceeded_not_aborted (t : PackInstallTask)
    (h : t.state ≠ TaskState.aborted) : t.emitSucceeded.state ≠ TaskState.aborted := by
  simp only [emitSucceeded]
  cases hs : t.state <;> simp_all

theorem install_not_aborted (env : Env) (t : PackInstallTask)
    (h : t.state ≠ TaskState.aborted) : (install env t).state ≠ TaskState.aborted := by
  have hdone : ∀ s : TaskState, s ≠ TaskState.aborted →
      (match s with
        | TaskState.running => TaskState.succeeded
        | s2 => s2) ≠ TaskState.aborted := by
    intro s hs
    cases s <;> simp_all
  by_cases h1 : t.m_version.loader.type = "forge"
  · have hst : (install env t).state = (match t.state with
        | TaskState.running => TaskState.succeeded
        | s2 => s2) := by
      simp [install, call, emitSucceeded, h1]
    rw [hst]
    exact hdone _ h
  · by_cases h2 : t.m_version.loader.type = "fabric"
    · have hst : (install env t).state = (match t.state with
          | TaskState.running => TaskState.succeeded
          | s2 => s2) := by
        simp [install, call, emitSucceeded, h2]
      rw [hst]
      exact hdone _ h
    · by_cases h3 : t.m_version.loader.type = ""
      · have hst : (install env t).state = (match t.state with
            | TaskState.running => TaskState.succeeded
            | s2 => s2) := by
          simp [install, call, emitSucceeded, h3]
        rw [hst]
        exact hdone _ h
      · rw [(install_unknown env t h1 h2 h3).2]
        cases hs : t.state <;> simp_all

theorem installMods_not_aborted (env : Env) (t : PackInstallTask)
    (h : t.state ≠ TaskState.aborted) : (installMods env t).state ≠ TaskState.aborted := by
  have hstep := (LoopStep.installModsLoop env t.m_version.mods (modsEntry env t)).2.2.2.2.2.2.2
  have hloop : (installModsLoop env t.m_version.mods (modsEntry env t)).2.state
      ≠ TaskState.aborted := by
    rcases hstep with h1 | ⟨_, r, h1⟩
    · rw [h1]; exact h
    · rw [h1]; simp
  rw [installMods_eq]
  split
  · split
    · exact hloop
    · exact hloop
  · exact hloop

theorem extractConfigs_not_aborted (env : Env) (t : PackInstallTask)
    (h : t.state ≠ TaskState.aborted) : (extractConfigs env t).state ≠ TaskState.aborted := by
  unfold extractConfigs
  simp only []
  split
  · exact emitFailed_not_aborted _ _ h
  · exact h

theorem onDownloadSucceeded_not_aborted (env : Env) (t : PackInstallTask)
    (h : t.state ≠ TaskState.aborted) :
    (onDownloadSucceeded env t).state ≠ TaskState.aborted := by
  unfold onDownloadSucceeded
  simp only []
  split
  · exact h
  · exact h

/-- A signal other than the cancellation of a pending extraction does not move a
task to Aborted. -/
theorem deliver_not_aborted (env : Env) (e : Event) (t : PackInstallTask)
    (h : t.state ≠ TaskState.aborted)
    (he : e ≠ Event.extractCanceled ∨ t.extractPending = false) :
    (deliver env e t).state ≠ TaskState.aborted := by
  cases e with
  | jobSucceeded =>
    simp only [deliver]
    split
    · split
      · split
        · exact onDownloadSucceeded_not_aborted env t h
        · exact extractConfigs_not_aborted env _ h
        · exact install_not_aborted env _ h
        · exact h
      · exact h
    · exact h
  | jobFailed reason =>
    simp only [deliver]
    split
    · split
      · split
        · exact emitFailed_not_aborted _ _ h
        · exact emitFailed_not_aborted _ _ h
        · exact emitFailed_not_aborted _ _ h
        · exact h
      · exact h
    · exact h
  | jobProgress current total =>
    simp only [deliver]
    split
    · split
      · split
        · exact h
        · exact h
        · exact h
      · exact h
    · exact h
  | extractFinished =>
    simp only [deliver]
    split
    · exact installMods_not_aborted env _ h
    · exact h
  | extractCanceled =>
    rcases he with he | he
    · exact absurd rfl he
    · simp only [deliver, he]
      exact h

/-- C7, refuted as stated: a running task that waits for its manifest job is still
running after `abort`, still holds the started job, and the success of that job,
delivered after the abort, starts the config-archive job. -/
theorem abort_does_not_stop_pipeline :
    fetchingTask.state = TaskState.running ∧
    (abort fetchingTask).2.state = TaskState.running ∧
    (abort fetchingTask).2.jobPtr.map NetJob.started = some true ∧
    (deliver env0 Event.jobSucceeded (abort fetchingTask).2).jobPtr.map NetJob.name
      = some "Config download" ∧
    (newCalls (abort fetchingTask).2
        (deliver env0 Event.jobSucceeded (abort fetchingTask).2)).getLast?
      = (deliver env0 Event.jobSucceeded (abort fetchingTask).2).jobPtr.map Effect.jobStart ∧
    (deliver env0 Event.jobSucceeded (abort fetchingTask).2).state = TaskState.running := by
  decide

/-- C7, amended: `abort` returns true and changes nothing: the state, the job held
and the pending extraction are as before, so every signal delivered after it is
handled as without it; a running task becomes Aborted by the cancellation signal of
a pending extraction, and by no other signal. -/
theorem abort_is_no_op (env : Env) (t : PackInstallTask) :
    (abort t).1 = true ∧
    (abort t).2 = t ∧
    (∀ e, deliver env e (abort t).2 = deliver env e t) ∧
    (t.state = TaskState.running → t.extractPending = true →
      (deliver env Event.extractCanceled t).state = TaskState.aborted) ∧
    (∀ e, t.state = TaskState.running → (deliver env e t).state = TaskState.aborted →
      e = Event.extractCanceled ∧ t.extractPending = true) := by
  refine ⟨rfl, rfl, fun _ => rfl, ?_, ?_⟩
  · intro hr hx
    simp [deliver, hx, extractConfigs_canceled, emitAborted, hr]
  · intro e hr ha
    by_contra hne
    have hor : e ≠ Event.extractCanceled ∨ t.extractPending = false := by
      by_cases h1 : e = Event.extractCanceled
      · right
        cases hx : t.extractPending
        · rfl
        · exact absurd ⟨h1, hx⟩ hne
      · exact Or.inl h1
    exact deliver_not_aborted env e t (by rw [hr]; simp) hor ha

/-- C7 amended, at a running task whose extraction is pending. -/
theorem abort_is_no_op_witness :
    ({ taskWith (forgePack []) with extractPending := true } : PackInstallTask).state
      = TaskState.running ∧
    (deliver env0 Event.extractCanceled
      { taskWith (forgePack []) with extractPending := true }).state = TaskState.aborted :=
  ⟨rfl, (abort_is_no_op env0 { taskWith (forgePack []) with extractPending := true }).2.2.2.1
    rfl rfl⟩

end PackInstallTask

end ATLauncher
